import Mathlib

/-!
Shallow embedding of the falling-rust sandbox core (src/sandbox.rs and
src/simulation.rs), together with proofs about its grid primitives, its
sweep scheduler and its per-element update rules.

The modules cell.rs and element.rs are referenced by the sources but are
not part of src; the definitions taken from them are explicitly marked
as modelled from the spec.

The pseudo-random generator (Xoshiro256Plus) is modelled as a stream of
raw draws: a list of naturals consumed left to right, with gen_range
reducing a raw draw into the requested interval.  Rust u8 wrapping
arithmetic is modelled with explicit mod 256.  The simulation.rs calls
of set_element carry no source flag; they are modelled with source set
to false.
-/

set_option maxHeartbeats 1000000

/-- Elements of the falling-sand world, as enumerated by the exhaustive
dispatch match in simulation.rs. -/
inductive Element where
  | Air
  | Sand
  | Water
  | Acid
  | Oil
  | Drain
  | Fire
  | Ash
  | Lava
  | Smoke
  | Life
  | Iron
  | Rust
  | Plant
  | Wood
  | Rock
  | Indestructible
  | WaterSource
  | AcidSource
  | OilSource
  | LavaSource
  | FireSource
  deriving DecidableEq, BEq

/-- Modelled from the spec: the element catalog's form column
(solid / liquid / gas / special); element.rs is not under src. -/
inductive ElementForm where
  | Solid
  | Liquid
  | Gas
  | Special
  deriving DecidableEq, BEq

/-- Modelled from the spec: the element catalog's default strength column;
element.rs is not under src and the spec does not fix the numbers, so the
values below are representative.  No claim depends on a specific value. -/
def Element.strength : Element → Nat
  | Element.Air => 0
  | Element.Sand => 8
  | Element.Water => 8
  | Element.Acid => 8
  | Element.Oil => 8
  | Element.Drain => 0
  | Element.Fire => 32
  | Element.Ash => 8
  | Element.Lava => 128
  | Element.Smoke => 8
  | Element.Life => 2
  | Element.Iron => 64
  | Element.Rust => 8
  | Element.Plant => 16
  | Element.Wood => 16
  | Element.Rock => 32
  | Element.Indestructible => 255
  | Element.WaterSource => 1
  | Element.AcidSource => 1
  | Element.OilSource => 1
  | Element.LavaSource => 1
  | Element.FireSource => 1

/-- Modelled from the spec: the catalog's form per element; liquids are the
flowing substances, smoke is a gas, sources and the border block are special. -/
def Element.form : Element → ElementForm
  | Element.Air => ElementForm.Gas
  | Element.Sand => ElementForm.Solid
  | Element.Water => ElementForm.Liquid
  | Element.Acid => ElementForm.Liquid
  | Element.Oil => ElementForm.Liquid
  | Element.Drain => ElementForm.Special
  | Element.Fire => ElementForm.Gas
  | Element.Ash => ElementForm.Solid
  | Element.Lava => ElementForm.Liquid
  | Element.Smoke => ElementForm.Gas
  | Element.Life => ElementForm.Solid
  | Element.Iron => ElementForm.Solid
  | Element.Rust => ElementForm.Solid
  | Element.Plant => ElementForm.Solid
  | Element.Wood => ElementForm.Solid
  | Element.Rock => ElementForm.Solid
  | Element.Indestructible => ElementForm.Special
  | Element.WaterSource => ElementForm.Special
  | Element.AcidSource => ElementForm.Special
  | Element.OilSource => ElementForm.Special
  | Element.LavaSource => ElementForm.Special
  | Element.FireSource => ElementForm.Special

/-- Modelled from the spec: the flammable trait of the catalog.  The spec
requires the border element to be permanently indestructible, so it does
not burn. -/
def Element.burns : Element → Bool
  | Element.Oil => true
  | Element.Wood => true
  | Element.Plant => true
  | Element.Ash => false
  | _ => false

/-- Modelled from the spec: the dissolves-in-acid trait of the catalog.
The border element never dissolves. -/
def Element.dissolves_in_acid : Element → Bool
  | Element.Sand => true
  | Element.Ash => true
  | Element.Rust => true
  | Element.Iron => true
  | Element.Wood => true
  | Element.Plant => true
  | Element.Life => true
  | Element.Rock => true
  | _ => false

/-- Modelled from the spec: the causes-rust trait of the catalog. -/
def Element.causes_rust : Element → Bool
  | Element.Water => true
  | Element.Rust => true
  | _ => false

/-- Modelled from the spec: the grows-plant trait of the catalog. -/
def Element.grows_plant : Element → Bool
  | Element.Water => true
  | _ => false

/-- Modelled from the spec: whether the catalog's color-variance factor of
an element is strictly positive (the factor itself is a float and only its
positivity is ever consulted, by set_element). -/
def Element.randomize_color_factor_pos : Element → Bool
  | Element.Air => false
  | Element.Drain => false
  | Element.Indestructible => false
  | Element.WaterSource => false
  | Element.AcidSource => false
  | Element.OilSource => false
  | Element.LavaSource => false
  | Element.FireSource => false
  | _ => true

/-- Cell of the grid, as in cell.rs (fields as used by sandbox.rs). -/
structure Cell where
  element : Element
  variant : Nat
  strength : Nat
  visited : Bool
  source : Bool
  deriving DecidableEq, BEq

/-- Cell value the empty grid is filled with (also the out-of-range default
of the embedding's list lookup; Rust would panic out of range instead). -/
def cellDefault : Cell :=
  { element := Element.Air, variant := 0, strength := 0, visited := false, source := false }

/-- The SandBox grid of sandbox.rs.  The Xoshiro256Plus field is modelled
as a stream (list) of raw natural draws. -/
structure SandBox where
  width : Nat
  height : Nat
  cells : List Cell
  visited_state : Bool
  random_source : List Nat
  deriving DecidableEq

/-- Row-major addressing, sandbox.rs index. -/
def SandBox.index (s : SandBox) (x y : Nat) : Nat :=
  x + y * s.width

/-- Read a cell, sandbox.rs get. -/
def SandBox.get (s : SandBox) (x y : Nat) : Cell :=
  s.cells.getD (s.index x y) cellDefault

/-- Write a cell in place; this models the mutation performed through
get_mut and through direct writes of self.cells in sandbox.rs. -/
def SandBox.setCell (s : SandBox) (x y : Nat) (c : Cell) : SandBox :=
  { s with cells := s.cells.set (s.index x y) c }

/-- Consume one raw draw of the random stream. -/
def SandBox.next_random (s : SandBox) : Nat × SandBox :=
  (s.random_source.headD 0, { s with random_source := s.random_source.tail })

/-- Models self.random.gen_range(0..n): the next raw draw reduced into
the interval [0, n). -/
def SandBox.gen_range (s : SandBox) (n : Nat) : Nat × SandBox :=
  let r := s.next_random
  (r.1 % n, r.2)

/-- Models self.random.gen::<u8>() as used for the color variant. -/
def SandBox.gen_u8 (s : SandBox) : Nat × SandBox :=
  let r := s.next_random
  (r.1 % 256, r.2)

/-- The random(max) helper of sandbox.rs: gen_range(0..1000*max) % max. -/
def SandBox.random (s : SandBox) (max : Nat) : Nat × SandBox :=
  let r := s.gen_range (1000 * max)
  (r.1 % max, r.2)

/-- The random_neighbour_x helper of sandbox.rs:
gen_range(0..1000) % 2 == 0 picks x+1, otherwise x-1. -/
def SandBox.random_neighbour_x (s : SandBox) (x : Nat) : Nat × SandBox :=
  let r := s.gen_range 1000
  (if r.1 % 2 = 0 then x + 1 else x - 1, r.2)

/-- The reduce_strength primitive of sandbox.rs. -/
def SandBox.reduce_strength (s : SandBox) (x y : Nat) : Bool × SandBox :=
  let cell := s.get x y
  if cell.strength > 1 then
    (true, s.setCell x y { cell with strength := cell.strength - 1 })
  else
    (false, s)

/-- The set_element primitive of sandbox.rs. -/
def SandBox.set_element (s : SandBox) (x y : Nat) (element : Element) (source : Bool) : SandBox :=
  let cell := s.get x y
  if cell.element = Element.Indestructible then
    s
  else
    let cell1 := { cell with
      element := element
      visited := s.visited_state
      strength := element.strength
      source := source }
    if element.randomize_color_factor_pos then
      let r := s.gen_u8
      r.2.setCell x y { cell1 with variant := r.1 }
    else
      s.setCell x y cell1

/-- The clear_cell primitive of sandbox.rs. -/
def SandBox.clear_cell (s : SandBox) (x y : Nat) : SandBox :=
  s.set_element x y Element.Air false

/-- The swap primitive of sandbox.rs. -/
def SandBox.swap (s : SandBox) (x y x2 y2 : Nat) : SandBox :=
  let cell := s.get x y
  let cell2 := s.get x2 y2
  if cell.element = Element.Indestructible ∨ cell2.element = Element.Indestructible then
    s
  else
    let cell := { cell with visited := s.visited_state }
    let cell2 := { cell2 with visited := s.visited_state }
    (s.setCell x y cell2).setCell x2 y2 cell

/-- The set_visited primitive of sandbox.rs. -/
def SandBox.set_visited (s : SandBox) (x y : Nat) : SandBox :=
  s.setCell x y { s.get x y with visited := s.visited_state }

/-- The toggle_visited_state primitive of sandbox.rs; returns the new
parity together with the updated grid. -/
def SandBox.toggle_visited_state (s : SandBox) : Bool × SandBox :=
  (!s.visited_state, { s with visited_state := !s.visited_state })

/-- The is_visited_state primitive of sandbox.rs. -/
def SandBox.is_visited_state (s : SandBox) : Bool :=
  s.visited_state

/-- The clear primitive of sandbox.rs: every interior cell has its element
set to Air and its visited flag stamped; nothing else changes. -/
def SandBox.clear (s : SandBox) : SandBox :=
  (List.range' 1 (s.height - 1 - 1)).foldl
    (fun t y =>
      (List.range' 1 (t.width - 1 - 1)).foldl
        (fun u x =>
          let cell := u.get x y
          u.setCell x y { cell with element := Element.Air, visited := u.visited_state })
        t)
    s

/-- The empty constructor of sandbox.rs (from_entropy is modelled by the
caller-provided raw stream). -/
def SandBox.empty (width height : Nat) (random_source : List Nat) : SandBox :=
  { width := width
    height := height
    cells := List.replicate (width * height) cellDefault
    visited_state := false
    random_source := random_source }

/-- The new constructor of sandbox.rs: an empty grid whose border is then
stamped Indestructible. -/
def SandBox.new (width height : Nat) (random_source : List Nat) : SandBox :=
  let world := SandBox.empty width height random_source
  let world := (List.range world.width).foldl
    (fun t x =>
      (t.set_element x 0 Element.Indestructible false).set_element
        x (t.height - 1) Element.Indestructible false)
    world
  (List.range world.height).foldl
    (fun t y =>
      (t.set_element 0 y Element.Indestructible false).set_element
        (t.width - 1) y Element.Indestructible false)
    world

/-- Modelled from the spec: Cell::dissolve_to lives in cell.rs, which is
not under src.  Per the glossary a dissolve decrements the target's
strength, converting it once fully consumed; mirroring reduce_strength,
while the strength is above 1 it decrements and reports false, and once
the strength cannot decrement further the cell converts to the given
element (strength reset to that element's default) and it reports true. -/
def SandBox.dissolve_to (s : SandBox) (x y : Nat) (element : Element) : Bool × SandBox :=
  let cell := s.get x y
  if cell.strength > 1 then
    (false, s.setCell x y { cell with strength := cell.strength - 1 })
  else
    (true, s.setCell x y { cell with element := element, strength := element.strength })

/-- The sand rule of simulation.rs (also used for Rust and, via
update_ash, for Ash). -/
def update_sand (x y : Nat) (s : SandBox) : Bool × SandBox :=
  let element_below := (s.get x (y + 1)).element
  if element_below = Element.Air ∨ element_below = Element.Water ∨
      element_below = Element.Fire ∨ element_below = Element.Oil then
    (true, s.swap x y x (y + 1))
  else if element_below = Element.Acid then
    let r := s.dissolve_to x y Element.Air
    if r.1 then (false, r.2.clear_cell x (y + 1))
    else (true, r.2.swap x y x (y + 1))
  else
    let n := s.random_neighbour_x x
    let neighbour_element := (n.2.get n.1 (y + 1)).element
    if neighbour_element = Element.Air ∨ neighbour_element = Element.Water then
      (true, n.2.swap x y n.1 (y + 1))
    else if neighbour_element = Element.Acid then
      let r := n.2.dissolve_to n.1 (y + 1) Element.Air
      if r.1 then (false, r.2.clear_cell x (y + 1))
      else (true, r.2.swap x y n.1 (y + 1))
    else
      (false, n.2)

/-- The shared touch helper of the water rule, touch_water of
simulation.rs; none means the neighbour was of no interest and the grid
is untouched. -/
def touch_water (s : SandBox) (water_x water_y other_x other_y random : Nat) :
    Option (Bool × SandBox) :=
  let other_element := (s.get other_x other_y).element
  if other_element = Element.Air ∨ other_element = Element.Oil then
    some (true, s.swap water_x water_y other_x other_y)
  else if other_element = Element.Acid then
    let r := s.dissolve_to other_x other_y Element.Water
    let s2 := if water_y < other_y ∧ random % 2 = 0 then
        r.2.swap water_x water_y other_x other_y
      else r.2
    some (false, s2)
  else if other_element = Element.Lava then
    let r := s.dissolve_to other_x other_y Element.Rock
    some (false, if r.1 then r.2.clear_cell water_x water_y else r.2)
  else if other_element = Element.Fire then
    let s1 := s.clear_cell water_x water_y
    some (true, s1.set_element other_x other_y Element.Water false)
  else
    none

/-- The lateral-search loop of the water rule, over the remaining list of
distances n (the Rust loop for n in 1..16 with early return and break). -/
def update_water_loop (x y random : Nat) (s : SandBox) : List Nat → Bool × SandBox
  | [] => (false, s)
  | n :: ns =>
    let check_x_opt : Option Nat :=
      if random < 30 then
        if n < x then some (x - n) else none
      else
        if x + n < s.width - 1 then some (x + n) else none
    match check_x_opt with
    | none => update_water_loop x y random s ns
    | some check_x =>
      let neighbour_element := (s.get check_x y).element
      match touch_water s x y check_x y random with
      | some r => r
      | none =>
        if neighbour_element ≠ Element.Water then (false, s)
        else update_water_loop x y random s ns

/-- The water rule of simulation.rs. -/
def update_water (x y : Nat) (s : SandBox) : Bool × SandBox :=
  let d := s.random 60
  let random := d.1
  let s1 := d.2
  let check_x := if random < 58 then x else if random = 58 then x - 1 else x + 1
  match touch_water s1 x y check_x (y + 1) random with
  | some r => r
  | none => update_water_loop x y random s1 (List.range' 1 15)

/-- The lateral-search loop of the acid rule (the Rust loop for n in 1..8). -/
def update_acid_loop (x y random : Nat) (s : SandBox) : List Nat → Bool × SandBox
  | [] => (false, s)
  | n :: ns =>
    let check_x_opt : Option Nat :=
      if random < 30 then
        if n < x then some (x - n) else none
      else
        if x + n < s.width - 1 then some (x + n) else none
    match check_x_opt with
    | none => update_acid_loop x y random s ns
    | some check_x =>
      let neighbour_element := (s.get check_x y).element
      if neighbour_element = Element.Air then
        (true, s.swap x y check_x y)
      else if neighbour_element.dissolves_in_acid then
        let r := s.dissolve_to check_x y Element.Air
        if r.1 then (true, r.2.clear_cell x y) else (true, r.2)
      else if neighbour_element ≠ Element.Acid then (false, s)
      else update_acid_loop x y random s ns

/-- The acid rule of simulation.rs. -/
def update_acid (x y : Nat) (s : SandBox) : Bool × SandBox :=
  let d := s.random 60
  let random := d.1
  let s1 := d.2
  let check_x := if random < 50 then x else if random < 55 then x - 1 else x + 1
  let element_below := (s1.get check_x (y + 1)).element
  if element_below = Element.Air ∨ element_below = Element.Fire then
    (true, s1.swap x y check_x (y + 1))
  else if element_below = Element.Water then
    (false, (s1.dissolve_to x y Element.Water).2)
  else if element_below.dissolves_in_acid then
    let r := s1.dissolve_to check_x (y + 1) Element.Air
    if r.1 then (true, r.2.clear_cell x y) else (false, r.2)
  else
    update_acid_loop x y random s1 (List.range' 1 7)

/-- The lateral-search loop of the oil rule (the Rust loop for n in 1..8). -/
def update_oil_loop (x y random : Nat) (s : SandBox) : List Nat → Bool × SandBox
  | [] => (false, s)
  | n :: ns =>
    let check_x_opt : Option Nat :=
      if random < 250 then
        if n < x then some (x - n) else none
      else
        if x + n < s.width - 1 then some (x + n) else none
    match check_x_opt with
    | none => update_oil_loop x y random s ns
    | some check_x =>
      let neighbour_element := (s.get check_x y).element
      if neighbour_element = Element.Air ∨ (n = 1 ∧ neighbour_element = Element.Acid) then
        (true, s.swap x y check_x y)
      else if neighbour_element ≠ Element.Oil then (false, s)
      else update_oil_loop x y random s ns

/-- The oil rule of simulation.rs. -/
def update_oil (x y : Nat) (s : SandBox) : Bool × SandBox :=
  let d := s.random 500
  let random := d.1
  let s1 := d.2
  let check_x := if random > 50 then x else if random > 25 then x - 1 else x + 1
  let element_below := (s1.get check_x (y + 1)).element
  if element_below = Element.Air ∨ element_below = Element.Acid then
    (true, s1.swap x y check_x (y + 1))
  else
    update_oil_loop x y random s1 (List.range' 1 7)

/-- The drain rule of simulation.rs. -/
def update_drain (x y : Nat) (s : SandBox) : Bool × SandBox :=
  if (s.get x (y - 1)).element.form = ElementForm.Liquid then
    (true, s.clear_cell x (y - 1))
  else if (s.get (x - 1) y).element.form = ElementForm.Liquid then
    (true, s.clear_cell (x - 1) y)
  else if (s.get (x + 1) y).element.form = ElementForm.Liquid then
    (true, s.clear_cell (x + 1) y)
  else
    (false, s)

/-- The flicker-and-move tail of the fire rule (everything of update_fire
after the strength-decay branch has not fired). -/
def fire_flicker_move (x y random : Nat) (s : SandBox) : Bool × SandBox :=
  let cell := s.get x y
  let s1 := s.setCell x y { cell with variant := ((cell.variant + random * 10) % 256) % 255 }
  let nxy : Nat × Nat :=
    match random with
    | 0 => (x, y + 1)
    | 1 => (x + 1, y)
    | 2 => (x - 1, y)
    | _ => (x, y - 1)
  let element := (s1.get nxy.1 nxy.2).element
  if element = Element.Air then
    (true, s1.swap x y nxy.1 nxy.2)
  else if element.burns then
    if element.form = ElementForm.Solid ∧ random > 3 then
      (false, (s1.dissolve_to nxy.1 nxy.2 Element.Ash).2)
    else
      (false, (s1.dissolve_to nxy.1 nxy.2 Element.Fire).2)
  else
    (false, s1)

/-- The fire rule of simulation.rs; the short-circuit of
random > 3 && !reduce_strength is modelled by nesting. -/
def update_fire (x y : Nat) (s : SandBox) : Bool × SandBox :=
  let d := s.random 5
  let random := d.1
  let s1 := d.2
  if random > 3 then
    let r := s1.reduce_strength x y
    if !r.1 then (true, r.2.set_element x y Element.Smoke false)
    else fire_flicker_move x y random r.2
  else
    fire_flicker_move x y random s1

/-- The ash rule of simulation.rs: identical to sand. -/
def update_ash (x y : Nat) (s : SandBox) : Bool × SandBox :=
  update_sand x y s

/-- The shared touch helper of the lava rule, touch_lava of simulation.rs. -/
def touch_lava (s : SandBox) (lava_x lava_y other_x other_y : Nat) :
    Option (Bool × SandBox) :=
  let element := (s.get other_x other_y).element
  if element = Element.Air ∨ element = Element.Acid ∨
      element = Element.Water ∨ element = Element.Fire then
    some (true, s.swap lava_x lava_y other_x other_y)
  else if element.burns then
    some (false, (s.dissolve_to other_x other_y Element.Fire).2)
  else
    none

/-- The spark-and-move tail of the lava rule (everything of update_lava
after the cooling branch has not fired). -/
def lava_spark_move (x y random : Nat) (s : SandBox) : Bool × SandBox :=
  let s4 := if random = 0 ∧ (s.get x (y - 1)).element = Element.Air then
      s.set_element x (y - 1) Element.Fire false
    else s
  match touch_lava s4 x y x (y + 1) with
  | some r => r
  | none =>
    let n := s4.random_neighbour_x x
    match touch_lava n.2 x y n.1 (y + 1) with
    | some r => r
    | none =>
      match touch_lava n.2 x y n.1 y with
      | some r => r
      | none => (false, n.2)

/-- The lava rule of simulation.rs. -/
def update_lava (x y : Nat) (s : SandBox) : Bool × SandBox :=
  let d := s.random 500
  let random := d.1
  let s1 := d.2
  let cell := s1.get x y
  let s2 := s1.setCell x y { cell with variant := ((cell.variant + random % 256) % 256) % 255 }
  let cool := if random < 250 ∧ cell.strength < 64 then s2.dissolve_to x y Element.Rock
    else (false, s2)
  if cool.1 then (true, cool.2)
  else lava_spark_move x y random cool.2

/-- The movement tail of the smoke rule (everything of update_smoke after
the strength-decay branch has not fired). -/
def smoke_move (x y random : Nat) (s : SandBox) : Bool × SandBox :=
  let nxy : Nat × Nat :=
    match random with
    | 0 => (x + 1, y)
    | 1 => (x - 1, y)
    | _ => (x, y - 1)
  let neighbour_element := (s.get nxy.1 nxy.2).element
  if neighbour_element = Element.Air then
    (true, s.swap x y nxy.1 nxy.2)
  else if neighbour_element = Element.Fire ∨ neighbour_element.form = ElementForm.Liquid then
    (true, s.clear_cell x y)
  else
    (false, s)

/-- The smoke rule of simulation.rs; the short-circuit of
random > 2 && !reduce_strength is modelled by nesting. -/
def update_smoke (x y : Nat) (s : SandBox) : Bool × SandBox :=
  let d := s.random 5
  let random := d.1
  let s1 := d.2
  if random > 2 then
    let r := s1.reduce_strength x y
    if !r.1 then (true, r.2.clear_cell x y)
    else smoke_move x y random r.2
  else
    smoke_move x y random s1

/-- The iron rule of simulation.rs. -/
def update_iron (x y : Nat) (s : SandBox) : Bool × SandBox :=
  let rusty_neighbour :=
    (s.get (x - 1) y).element.causes_rust || (s.get (x + 1) y).element.causes_rust ||
    (s.get x (y - 1)).element.causes_rust || (s.get x (y + 1)).element.causes_rust
  if rusty_neighbour then
    let d := s.random 5
    let random := d.1
    let s1 := d.2
    if random > 2 then
      let r := s1.reduce_strength x y
      if !r.1 then (true, r.2.set_element x y Element.Rust false)
      else (false, r.2)
    else
      (false, s1)
  else
    (false, s)

/-- One neighbour step of the plant rule: the random draw always happens,
the growth only on the grows-plant trait. -/
def plant_step (cs : Nat × SandBox) (p : Nat × Nat) : Nat × SandBox :=
  let d := cs.2.random 10
  let random := d.1
  let s1 := d.2
  if random ≤ 1 ∧ (s1.get p.1 p.2).element.grows_plant then
    (cs.1 + 1, s1.set_element p.1 p.2 Element.Plant false)
  else
    (cs.1, s1)

/-- The plant rule of simulation.rs. -/
def update_plant (x y : Nat) (s : SandBox) : Bool × SandBox :=
  let r := [(x - 1, y), (x + 1, y), (x, y - 1), (x, y + 1)].foldl plant_step (0, s)
  (decide (0 < r.1), r.2)

/-- The source rule of simulation.rs, shared by the five source elements. -/
def update_source (x y : Nat) (element : Element) (s : SandBox) : Bool × SandBox :=
  if (s.get x (y + 1)).element ≠ element then
    (true, s.set_element x (y + 1) element false)
  else
    (false, s)

/-- The live Moore-neighbour count; the same eight incrementing checks
appear verbatim inside both update_air and update_life of simulation.rs. -/
def living_neighbours (s : SandBox) (x y : Nat) : Nat :=
  (if (s.get (x - 1) (y - 1)).element = Element.Life then 1 else 0) +
  (if (s.get x (y - 1)).element = Element.Life then 1 else 0) +
  (if (s.get (x + 1) (y - 1)).element = Element.Life then 1 else 0) +
  (if (s.get (x - 1) y).element = Element.Life then 1 else 0) +
  (if (s.get (x + 1) y).element = Element.Life then 1 else 0) +
  (if (s.get (x - 1) (y + 1)).element = Element.Life then 1 else 0) +
  (if (s.get x (y + 1)).element = Element.Life then 1 else 0) +
  (if (s.get (x + 1) (y + 1)).element = Element.Life then 1 else 0)

/-- The air rule of simulation.rs: birth of Life on exactly three live
Moore neighbours. -/
def update_air (x y : Nat) (s : SandBox) : Bool × SandBox :=
  if living_neighbours s x y = 3 then
    (true, s.set_element x y Element.Life false)
  else
    (false, s)

/-- The life rule of simulation.rs: death outside two or three live Moore
neighbours. -/
def update_life (x y : Nat) (s : SandBox) : Bool × SandBox :=
  if living_neighbours s x y < 2 ∨ living_neighbours s x y > 3 then
    (true, s.set_element x y Element.Air false)
  else
    (false, s)

/-- The per-element dispatch table of update_cell in simulation.rs,
named so the scheduler contract can speak about it. -/
def element_rule (e : Element) (x y : Nat) (level : SandBox) : Bool × SandBox :=
  match e with
  | Element.Air => update_air x y level
  | Element.Sand => update_sand x y level
  | Element.Water => update_water x y level
  | Element.Acid => update_acid x y level
  | Element.Oil => update_oil x y level
  | Element.Drain => update_drain x y level
  | Element.Fire => update_fire x y level
  | Element.Ash => update_ash x y level
  | Element.Lava => update_lava x y level
  | Element.Smoke => update_smoke x y level
  | Element.Life => update_life x y level
  | Element.Iron => update_iron x y level
  | Element.Rust => update_sand x y level
  | Element.Plant => update_plant x y level
  | Element.Wood => (false, level)
  | Element.Rock => (false, level)
  | Element.Indestructible => (false, level)
  | Element.WaterSource => update_source x y Element.Water level
  | Element.AcidSource => update_source x y Element.Acid level
  | Element.OilSource => update_source x y Element.Oil level
  | Element.LavaSource => update_source x y Element.Lava level
  | Element.FireSource => update_source x y Element.Fire level

/-- The update_cell scheduler step of simulation.rs. -/
def update_cell (x y : Nat) (level : SandBox) : SandBox :=
  let cell := level.get x y
  if cell.visited = level.is_visited_state then
    level
  else
    let r : Bool × SandBox :=
      match cell.element with
      | Element.Air => update_air x y level
      | Element.Sand => update_sand x y level
      | Element.Water => update_water x y level
      | Element.Acid => update_acid x y level
      | Element.Oil => update_oil x y level
      | Element.Drain => update_drain x y level
      | Element.Fire => update_fire x y level
      | Element.Ash => update_ash x y level
      | Element.Lava => update_lava x y level
      | Element.Smoke => update_smoke x y level
      | Element.Life => update_life x y level
      | Element.Iron => update_iron x y level
      | Element.Rust => update_sand x y level
      | Element.Plant => update_plant x y level
      | Element.Wood => (false, level)
      | Element.Rock => (false, level)
      | Element.Indestructible => (false, level)
      | Element.WaterSource => update_source x y Element.Water level
      | Element.AcidSource => update_source x y Element.Acid level
      | Element.OilSource => update_source x y Element.Oil level
      | Element.LavaSource => update_source x y Element.Lava level
      | Element.FireSource => update_source x y Element.Fire level
    if r.1 then r.2 else r.2.set_visited x y

/-- The running/step flags of the Simulation resource of simulation.rs
(the wall-clock frame-time diagnostic is not modelled). -/
structure Simulation where
  running : Bool
  step : Bool
  deriving DecidableEq

/-- The level_updater scheduler of simulation.rs: one potential tick. -/
def level_updater (level : SandBox) (simulation : Simulation) : SandBox × Simulation :=
  if simulation.running || simulation.step then
    let simulation := { simulation with step := false }
    let t := level.toggle_visited_state
    let visited := t.1
    let level1 := t.2
    let width := level1.width - 1
    let height := level1.height - 1
    let level2 := (List.range' 1 (height - 1)).reverse.foldl
      (fun u y =>
        if visited then
          (List.range' 1 (width - 1)).foldl (fun v x => update_cell x y v) u
        else
          (List.range' 1 (width - 1)).reverse.foldl (fun v x => update_cell x y v) u)
      level1
    (level2, simulation)
  else
    (level, simulation)

/-- States reachable from construction by external edits and ticks, as in
the border-invariant claim. -/
inductive Reachable (w h : Nat) (rng : List Nat) : SandBox → Prop where
  | base : Reachable w h rng (SandBox.new w h rng)
  | set_element (s : SandBox) (x y : Nat) (e : Element) (src : Bool) :
      Reachable w h rng s → Reachable w h rng (s.set_element x y e src)
  | swap (s : SandBox) (x y x2 y2 : Nat) :
      Reachable w h rng s → Reachable w h rng (s.swap x y x2 y2)
  | clear_cell (s : SandBox) (x y : Nat) :
      Reachable w h rng s → Reachable w h rng (s.clear_cell x y)
  | clear (s : SandBox) :
      Reachable w h rng s → Reachable w h rng s.clear
  | tick (s : SandBox) (sim : Simulation) :
      Reachable w h rng s → Reachable w h rng (level_updater s sim).1

/-- Element stored at a raw cell index. -/
def elemAt (s : SandBox) (i : Nat) : Element :=
  (s.cells.getD i cellDefault).element

theorem elemAt_get (s : SandBox) (x y : Nat) :
    (s.get x y).element = elemAt s (s.index x y) := rfl

theorem width_setCell (s : SandBox) (x y : Nat) (c : Cell) :
    (s.setCell x y c).width = s.width := rfl

theorem height_setCell (s : SandBox) (x y : Nat) (c : Cell) :
    (s.setCell x y c).height = s.height := rfl

theorem visited_state_setCell (s : SandBox) (x y : Nat) (c : Cell) :
    (s.setCell x y c).visited_state = s.visited_state := rfl

theorem length_setCell (s : SandBox) (x y : Nat) (c : Cell) :
    (s.setCell x y c).cells.length = s.cells.length := by
  simp [SandBox.setCell]

theorem index_setCell (s : SandBox) (x y : Nat) (c : Cell) (a b : Nat) :
    (s.setCell x y c).index a b = s.index a b := rfl

/-- Raw characterization of setCell at the index level: the written index
changes when in range, every other index is untouched. -/
theorem get_setCell_index (s : SandBox) (x y : Nat) (c : Cell) (a b : Nat) :
    (s.setCell x y c).get a b =
      if s.index a b = s.index x y ∧ s.index x y < s.cells.length then c
      else s.get a b := by
  by_cases hi : s.index a b = s.index x y
  · by_cases hl : s.index x y < s.cells.length
    · rw [if_pos ⟨hi, hl⟩]
      simp only [SandBox.get, SandBox.setCell]
      rw [show (({ s with cells := s.cells.set (s.index x y) c } : SandBox).index a b)
          = s.index x y from hi]
      simp [List.getD, List.getElem?_set_self, hl]
    · rw [if_neg (by tauto)]
      have : s.cells.set (s.index x y) c = s.cells :=
        List.set_eq_of_length_le (Nat.le_of_not_lt hl)
      simp [SandBox.get, SandBox.setCell, this]
  · rw [if_neg (by tauto)]
    simp only [SandBox.get, SandBox.setCell, SandBox.index] at *
    simp [List.getD, List.getElem?_set_ne (fun h => hi h.symm)]

theorem elemAt_setCell (s : SandBox) (x y : Nat) (c : Cell) (i : Nat) :
    elemAt (s.setCell x y c) i =
      if i = s.index x y ∧ s.index x y < s.cells.length then c.element
      else elemAt s i := by
  by_cases hi : i = s.index x y
  · by_cases hl : s.index x y < s.cells.length
    · simp [elemAt, SandBox.setCell, hi, hl, List.getD, List.getElem?_set_self, hi ▸ hl]
    · rw [if_neg (by tauto)]
      have : s.cells.set (s.index x y) c = s.cells :=
        List.set_eq_of_length_le (Nat.le_of_not_lt hl)
      simp [elemAt, SandBox.setCell, this]
  · rw [if_neg (by tauto)]
    simp only [elemAt, SandBox.setCell]
    simp [List.getD, List.getElem?_set_ne (fun h => hi h.symm)]

theorem index_lt_length (s : SandBox) (x y : Nat) (hx : x < s.width) (hy : y < s.height)
    (hlen : s.cells.length = s.width * s.height) : s.index x y < s.cells.length := by
  have h0 : (y + 1) * s.width = y * s.width + s.width := by ring
  have h2 : (y + 1) * s.width ≤ s.height * s.width := Nat.mul_le_mul_right _ hy
  have h3 : s.height * s.width = s.width * s.height := Nat.mul_comm ..
  simp only [SandBox.index]
  omega

theorem index_inj (s : SandBox) (x y a b : Nat) (hx : x < s.width) (ha : a < s.width)
    (h : s.index x y = s.index a b) : x = a ∧ y = b := by
  simp only [SandBox.index] at h
  have hxa : x = a := by
    have h1 : (x + y * s.width) % s.width = x % s.width := Nat.add_mul_mod_self_right ..
    have h2 : (a + b * s.width) % s.width = a % s.width := Nat.add_mul_mod_self_right ..
    rw [Nat.mod_eq_of_lt hx] at h1
    rw [Nat.mod_eq_of_lt ha] at h2
    rw [h] at h1
    omega
  subst hxa
  have hw : 0 < s.width := by omega
  constructor
  · rfl
  · have : y * s.width = b * s.width := by omega
    exact Nat.eq_of_mul_eq_mul_right hw this

/-- Coordinate-level characterization of setCell for in-range coordinates. -/
theorem get_setCell (s : SandBox) (x y : Nat) (c : Cell) (a b : Nat)
    (hx : x < s.width) (hy : y < s.height) (ha : a < s.width) (hb : b < s.height)
    (hlen : s.cells.length = s.width * s.height) :
    (s.setCell x y c).get a b = if a = x ∧ b = y then c else s.get a b := by
  rw [get_setCell_index]
  by_cases hab : a = x ∧ b = y
  · obtain ⟨h1, h2⟩ := hab
    subst h1; subst h2
    simp [index_lt_length s a b ha hb hlen]
  · rw [if_neg hab, if_neg]
    intro ⟨h1, _⟩
    exact hab ⟨(index_inj s a b x y ha hx h1).1, (index_inj s a b x y ha hx h1).2⟩

/-- Structural invariant used for the border property: the op keeps the
grid dimensions, the cell count, the parity bit, and never removes
Indestructible from any index. -/
def PreservesInd (s t : SandBox) : Prop :=
  t.width = s.width ∧ t.height = s.height ∧ t.cells.length = s.cells.length ∧
    t.visited_state = s.visited_state ∧
    ∀ i, elemAt s i = Element.Indestructible → elemAt t i = Element.Indestructible

theorem presInd_refl (s : SandBox) : PreservesInd s s :=
  ⟨rfl, rfl, rfl, rfl, fun _ h => h⟩

theorem presInd_trans {s t u : SandBox} (h1 : PreservesInd s t) (h2 : PreservesInd t u) :
    PreservesInd s u := by
  obtain ⟨a1, b1, c1, d1, e1⟩ := h1
  obtain ⟨a2, b2, c2, d2, e2⟩ := h2
  exact ⟨a2.trans a1, b2.trans b1, c2.trans c1, d2.trans d1, fun i h => e2 i (e1 i h)⟩

/-- Transitivity with the later step first; stating it this way lets the
elaborator work backwards from the target state. -/
theorem presInd_trans2 {s t u : SandBox} (h2 : PreservesInd t u) (h1 : PreservesInd s t) :
    PreservesInd s u :=
  presInd_trans h1 h2

theorem presInd_rng (s : SandBox) (l : List Nat) :
    PreservesInd s { s with random_source := l } :=
  ⟨rfl, rfl, rfl, rfl, fun _ h => h⟩

theorem presInd_setCell_of_ne {s : SandBox} {x y : Nat} (c : Cell)
    (h : (s.get x y).element ≠ Element.Indestructible) :
    PreservesInd s (s.setCell x y c) := by
  refine ⟨rfl, rfl, length_setCell .., rfl, fun i hi => ?_⟩
  rw [elemAt_setCell]
  split
  · next hc =>
    exfalso
    apply h
    rw [elemAt_get]
    rw [← hc.1]
    exact hi
  · exact hi

theorem presInd_setCell_keep {s : SandBox} {x y : Nat} {c : Cell}
    (h : c.element = (s.get x y).element) :
    PreservesInd s (s.setCell x y c) := by
  refine ⟨rfl, rfl, length_setCell .., rfl, fun i hi => ?_⟩
  rw [elemAt_setCell]
  split
  · next hc =>
    rw [h, elemAt_get, ← hc.1]
    exact hi
  · exact hi

theorem presInd_set_element (s : SandBox) (x y : Nat) (e : Element) (src : Bool) :
    PreservesInd s (s.set_element x y e src) := by
  by_cases h : (s.get x y).element = Element.Indestructible
  · simp only [SandBox.set_element, if_pos h]
    exact presInd_refl s
  · by_cases hf : e.randomize_color_factor_pos
    · simp only [SandBox.set_element, if_neg h, if_pos hf]
      exact presInd_trans (presInd_rng s _) (presInd_setCell_of_ne _ h)
    · simp only [SandBox.set_element, if_neg h, if_neg hf]
      exact presInd_setCell_of_ne _ h

theorem presInd_clear_cell (s : SandBox) (x y : Nat) :
    PreservesInd s (s.clear_cell x y) :=
  presInd_set_element s x y Element.Air false

theorem presInd_swap (s : SandBox) (x y x2 y2 : Nat) :
    PreservesInd s (s.swap x y x2 y2) := by
  by_cases h : (s.get x y).element = Element.Indestructible ∨
      (s.get x2 y2).element = Element.Indestructible
  · simp only [SandBox.swap, if_pos h]
    exact presInd_refl s
  · push_neg at h
    obtain ⟨h1, h2⟩ := h
    simp only [SandBox.swap, if_neg (by tauto : ¬ ((s.get x y).element = Element.Indestructible ∨
      (s.get x2 y2).element = Element.Indestructible))]
    refine presInd_trans (presInd_setCell_of_ne _ h1) (presInd_setCell_of_ne _ ?_)
    rw [elemAt_get, index_setCell, elemAt_setCell]
    split
    · next hc => exact h2
    · rw [← elemAt_get]
      exact h2

theorem presInd_set_visited (s : SandBox) (x y : Nat) :
    PreservesInd s (s.set_visited x y) :=
  presInd_setCell_keep rfl

theorem presInd_reduce_strength (s : SandBox) (x y : Nat) :
    PreservesInd s (s.reduce_strength x y).2 := by
  by_cases h : (s.get x y).strength > 1
  · simp only [SandBox.reduce_strength, if_pos h]
    exact presInd_setCell_keep rfl
  · simp only [SandBox.reduce_strength, if_neg h]
    exact presInd_refl s

theorem presInd_dissolve_to {s : SandBox} {x y : Nat} (e : Element)
    (h : (s.get x y).element ≠ Element.Indestructible) :
    PreservesInd s (s.dissolve_to x y e).2 := by
  by_cases hs : (s.get x y).strength > 1
  · simp only [SandBox.dissolve_to, if_pos hs]
    exact presInd_setCell_keep rfl
  · simp only [SandBox.dissolve_to, if_neg hs]
    exact presInd_setCell_of_ne _ h

theorem ne_ind_of_dissolves {e : Element} (h : e.dissolves_in_acid = true) :
    e ≠ Element.Indestructible := by
  intro he
  subst he
  exact absurd h (by decide)

theorem ne_ind_of_burns {e : Element} (h : e.burns = true) :
    e ≠ Element.Indestructible := by
  intro he
  subst he
  exact absurd h (by decide)

theorem presInd_random (s : SandBox) (n : Nat) : PreservesInd s (s.random n).2 :=
  ⟨rfl, rfl, rfl, rfl, fun _ h => h⟩

theorem presInd_random_neighbour_x (s : SandBox) (x : Nat) :
    PreservesInd s (s.random_neighbour_x x).2 :=
  ⟨rfl, rfl, rfl, rfl, fun _ h => h⟩

theorem get_rng (s : SandBox) (l : List Nat) (x y : Nat) :
    ({ s with random_source := l } : SandBox).get x y = s.get x y := rfl

theorem get_setCell_self_element (s : SandBox) (x y : Nat) (c : Cell)
    (h : c.element = (s.get x y).element) :
    ((s.setCell x y c).get x y).element = (s.get x y).element := by
  rw [get_setCell_index]
  split
  · rw [h]
  · rfl

theorem presInd_update_sand (x y : Nat) (s : SandBox)
    (h : (s.get x y).element ≠ Element.Indestructible) :
    PreservesInd s (update_sand x y s).2 := by
  simp only [update_sand]
  split
  · exact presInd_swap ..
  · split
    · split
      · exact presInd_trans (presInd_dissolve_to _ h) (presInd_clear_cell ..)
      · exact presInd_trans (presInd_dissolve_to _ h) (presInd_swap ..)
    · split
      · exact presInd_trans (presInd_random_neighbour_x ..) (presInd_swap ..)
      · split
        · next hacid =>
          split
          · exact presInd_trans (presInd_random_neighbour_x ..)
              (presInd_trans (presInd_dissolve_to _ (by rw [hacid]; decide))
                (presInd_clear_cell ..))
          · exact presInd_trans (presInd_random_neighbour_x ..)
              (presInd_trans (presInd_dissolve_to _ (by rw [hacid]; decide))
                (presInd_swap ..))
        · exact presInd_random_neighbour_x s x

theorem presInd_touch_water (s : SandBox) (wx wy ox oy rnd : Nat) :
    ∀ p, touch_water s wx wy ox oy rnd = some p → PreservesInd s p.2 := by
  intro p hp
  simp only [touch_water] at hp
  split at hp
  · injection hp with hp
    subst hp
    exact presInd_swap ..
  · split at hp
    · next hacid =>
      injection hp with hp
      subst hp
      have hne : (s.get ox oy).element ≠ Element.Indestructible := by
        rw [hacid]; decide
      split
      · exact presInd_trans (presInd_dissolve_to _ hne) (presInd_swap ..)
      · exact presInd_dissolve_to _ hne
    · split at hp
      · next hlava =>
        injection hp with hp
        subst hp
        have hne : (s.get ox oy).element ≠ Element.Indestructible := by
          rw [hlava]; decide
        split
        · exact presInd_trans (presInd_dissolve_to _ hne) (presInd_clear_cell ..)
        · exact presInd_dissolve_to _ hne
      · split at hp
        · injection hp with hp
          subst hp
          exact presInd_trans (presInd_clear_cell ..) (presInd_set_element ..)
        · exact absurd hp (by simp)

theorem presInd_update_water_loop (x y rnd : Nat) (L : List Nat) :
    ∀ s, PreservesInd s (update_water_loop x y rnd s L).2 := by
  induction L with
  | nil => intro s; exact presInd_refl s
  | cons n ns ih =>
    intro s
    simp only [update_water_loop]
    split
    · exact ih s
    · next cx hcx =>
      split
      · next p hp => exact presInd_touch_water _ _ _ _ _ _ p hp
      · split
        · exact presInd_refl s
        · exact ih s

theorem presInd_update_water (x y : Nat) (s : SandBox) :
    PreservesInd s (update_water x y s).2 := by
  simp only [update_water]
  split
  · next p hp =>
    exact presInd_trans (presInd_random ..) (presInd_touch_water _ _ _ _ _ _ p hp)
  · exact presInd_trans (presInd_random ..) (presInd_update_water_loop ..)

theorem presInd_update_acid_loop (x y rnd : Nat) (L : List Nat) :
    ∀ s, PreservesInd s (update_acid_loop x y rnd s L).2 := by
  induction L with
  | nil => intro s; exact presInd_refl s
  | cons n ns ih =>
    intro s
    simp only [update_acid_loop]
    split
    · exact ih s
    · next cx hcx =>
      split
      · exact presInd_swap ..
      · split
        · next hdis =>
          split
          · exact presInd_trans (presInd_dissolve_to _ (ne_ind_of_dissolves hdis))
              (presInd_clear_cell ..)
          · exact presInd_dissolve_to _ (ne_ind_of_dissolves hdis)
        · split
          · exact presInd_refl s
          · exact ih s

theorem presInd_update_acid (x y : Nat) (s : SandBox)
    (h : (s.get x y).element ≠ Element.Indestructible) :
    PreservesInd s (update_acid x y s).2 := by
  have h1 : ((s.random 60).2.get x y).element ≠ Element.Indestructible := h
  simp only [update_acid]
  split
  case isTrue =>
    split
    · exact presInd_trans2 (presInd_swap ..) (presInd_random ..)
    · split
      · exact presInd_trans2 (presInd_dissolve_to _ h1) (presInd_random ..)
      · split
        · next hdis =>
          split
          · exact presInd_trans2 (presInd_clear_cell ..)
              (presInd_trans2 (presInd_dissolve_to _ (ne_ind_of_dissolves hdis))
                (presInd_random ..))
          · exact presInd_trans2 (presInd_dissolve_to _ (ne_ind_of_dissolves hdis))
              (presInd_random ..)
        · exact presInd_trans2 (presInd_update_acid_loop ..) (presInd_random ..)
  case isFalse =>
    split <;>
    · split
      · exact presInd_trans2 (presInd_swap ..) (presInd_random ..)
      · split
        · exact presInd_trans2 (presInd_dissolve_to _ h1) (presInd_random ..)
        · split
          · next hdis =>
            split
            · exact presInd_trans2 (presInd_clear_cell ..)
                (presInd_trans2 (presInd_dissolve_to _ (ne_ind_of_dissolves hdis))
                  (presInd_random ..))
            · exact presInd_trans2 (presInd_dissolve_to _ (ne_ind_of_dissolves hdis))
                (presInd_random ..)
          · exact presInd_trans2 (presInd_update_acid_loop ..) (presInd_random ..)

theorem presInd_update_oil_loop (x y rnd : Nat) (L : List Nat) :
    ∀ s, PreservesInd s (update_oil_loop x y rnd s L).2 := by
  induction L with
  | nil => intro s; exact presInd_refl s
  | cons n ns ih =>
    intro s
    simp only [update_oil_loop]
    split
    · exact ih s
    · split
      · exact presInd_swap ..
      · split
        · exact presInd_refl s
        · exact ih s

theorem presInd_update_oil (x y : Nat) (s : SandBox) :
    PreservesInd s (update_oil x y s).2 := by
  simp only [update_oil]
  split
  case isTrue =>
    split
    · exact presInd_trans2 (presInd_swap ..) (presInd_random ..)
    · exact presInd_trans2 (presInd_update_oil_loop ..) (presInd_random ..)
  case isFalse =>
    split <;>
    · split
      · exact presInd_trans2 (presInd_swap ..) (presInd_random ..)
      · exact presInd_trans2 (presInd_update_oil_loop ..) (presInd_random ..)

theorem presInd_update_drain (x y : Nat) (s : SandBox) :
    PreservesInd s (update_drain x y s).2 := by
  simp only [update_drain]
  split
  · exact presInd_clear_cell ..
  · split
    · exact presInd_clear_cell ..
    · split
      · exact presInd_clear_cell ..
      · exact presInd_refl s

theorem presInd_fire_flicker_move (x y rnd : Nat) (s : SandBox) :
    PreservesInd s (fire_flicker_move x y rnd s).2 := by
  simp only [fire_flicker_move]
  split
  · exact presInd_trans2 (presInd_swap ..) (presInd_setCell_keep rfl)
  · split
    · next hburns =>
      split
      · exact presInd_trans2 (presInd_dissolve_to _ (ne_ind_of_burns hburns))
          (presInd_setCell_keep rfl)
      · exact presInd_trans2 (presInd_dissolve_to _ (ne_ind_of_burns hburns))
          (presInd_setCell_keep rfl)
    · exact presInd_setCell_keep rfl

theorem presInd_update_fire (x y : Nat) (s : SandBox) :
    PreservesInd s (update_fire x y s).2 := by
  simp only [update_fire]
  split
  · split
    · exact presInd_trans2 (presInd_set_element ..)
        (presInd_trans2 (presInd_reduce_strength ..) (presInd_random ..))
    · exact presInd_trans2 (presInd_fire_flicker_move ..)
        (presInd_trans2 (presInd_reduce_strength ..) (presInd_random ..))
  · exact presInd_trans2 (presInd_fire_flicker_move ..) (presInd_random ..)

theorem presInd_update_ash (x y : Nat) (s : SandBox)
    (h : (s.get x y).element ≠ Element.Indestructible) :
    PreservesInd s (update_ash x y s).2 :=
  presInd_update_sand x y s h

theorem presInd_touch_lava (s : SandBox) (lx ly ox oy : Nat) :
    ∀ p, touch_lava s lx ly ox oy = some p → PreservesInd s p.2 := by
  intro p hp
  simp only [touch_lava] at hp
  split at hp
  · injection hp with hp
    subst hp
    exact presInd_swap ..
  · split at hp
    · next hburns =>
      injection hp with hp
      subst hp
      exact presInd_dissolve_to _ (ne_ind_of_burns hburns)
    · exact absurd hp (by simp)

theorem presInd_lava_spark_move (x y rnd : Nat) (s : SandBox) :
    PreservesInd s (lava_spark_move x y rnd s).2 := by
  simp only [lava_spark_move]
  by_cases hs4 : rnd = 0 ∧ (s.get x (y - 1)).element = Element.Air
  · rw [if_pos hs4]
    split
    · next p hp =>
      exact presInd_trans2 (presInd_touch_lava _ _ _ _ _ p hp) (presInd_set_element ..)
    · split
      · next p hp =>
        exact presInd_trans2 (presInd_touch_lava _ _ _ _ _ p hp)
          (presInd_trans2 (presInd_random_neighbour_x _ x) (presInd_set_element ..))
      · split
        · next p hp =>
          exact presInd_trans2 (presInd_touch_lava _ _ _ _ _ p hp)
            (presInd_trans2 (presInd_random_neighbour_x _ x) (presInd_set_element ..))
        · exact presInd_trans2 (presInd_random_neighbour_x _ x) (presInd_set_element ..)
  · rw [if_neg hs4]
    split
    · next p hp => exact presInd_touch_lava _ _ _ _ _ p hp
    · split
      · next p hp =>
        exact presInd_trans2 (presInd_touch_lava _ _ _ _ _ p hp)
          (presInd_random_neighbour_x s x)
      · split
        · next p hp =>
          exact presInd_trans2 (presInd_touch_lava _ _ _ _ _ p hp)
            (presInd_random_neighbour_x s x)
        · exact presInd_random_neighbour_x s x

theorem ne_ind_setCell_self {s : SandBox} {x y : Nat} {c : Cell}
    (hc : c.element ≠ Element.Indestructible)
    (hs : (s.get x y).element ≠ Element.Indestructible) :
    ((s.setCell x y c).get x y).element ≠ Element.Indestructible := by
  rw [get_setCell_index]
  split
  · exact hc
  · exact hs

theorem presInd_update_lava (x y : Nat) (s : SandBox)
    (h : (s.get x y).element ≠ Element.Indestructible) :
    PreservesInd s (update_lava x y s).2 := by
  simp only [update_lava]
  by_cases hc : (s.random 500).1 < 250 ∧ ((s.random 500).2.get x y).strength < 64
  · rw [if_pos hc]
    split
    · exact presInd_trans2
        (presInd_dissolve_to _ (ne_ind_setCell_self h h))
        (presInd_trans2 (presInd_setCell_keep rfl) (presInd_random ..))
    · exact presInd_trans2 (presInd_lava_spark_move ..)
        (presInd_trans2
          (presInd_dissolve_to _ (ne_ind_setCell_self h h))
          (presInd_trans2 (presInd_setCell_keep rfl) (presInd_random ..)))
  · rw [if_neg hc]
    split
    · next hfalse => exact absurd hfalse (by simp)
    · exact presInd_trans2 (presInd_lava_spark_move ..)
        (presInd_trans2 (presInd_setCell_keep rfl) (presInd_random ..))

theorem presInd_smoke_move (x y rnd : Nat) (s : SandBox) :
    PreservesInd s (smoke_move x y rnd s).2 := by
  simp only [smoke_move]
  split
  · exact presInd_swap ..
  · split
    · exact presInd_clear_cell ..
    · exact presInd_refl s

theorem presInd_update_smoke (x y : Nat) (s : SandBox) :
    PreservesInd s (update_smoke x y s).2 := by
  simp only [update_smoke]
  split
  · split
    · exact presInd_trans2 (presInd_clear_cell ..)
        (presInd_trans2 (presInd_reduce_strength ..) (presInd_random ..))
    · exact presInd_trans2 (presInd_smoke_move ..)
        (presInd_trans2 (presInd_reduce_strength ..) (presInd_random ..))
  · exact presInd_trans2 (presInd_smoke_move ..) (presInd_random ..)

theorem presInd_update_iron (x y : Nat) (s : SandBox) :
    PreservesInd s (update_iron x y s).2 := by
  simp only [update_iron]
  split
  · split
    · split
      · exact presInd_trans2 (presInd_set_element ..)
          (presInd_trans2 (presInd_reduce_strength ..) (presInd_random ..))
      · exact presInd_trans2 (presInd_reduce_strength ..) (presInd_random ..)
    · exact presInd_random s 5
  · exact presInd_refl s

theorem presInd_plant_step (cs : Nat × SandBox) (p : Nat × Nat) :
    PreservesInd cs.2 (plant_step cs p).2 := by
  simp only [plant_step]
  split
  · exact presInd_trans2 (presInd_set_element ..) (presInd_random ..)
  · exact presInd_random cs.2 10

theorem presInd_update_plant (x y : Nat) (s : SandBox) :
    PreservesInd s (update_plant x y s).2 := by
  show PreservesInd s
    (plant_step (plant_step (plant_step (plant_step (0, s) (x - 1, y)) (x + 1, y))
      (x, y - 1)) (x, y + 1)).2
  exact presInd_trans2 (presInd_plant_step _ _)
    (presInd_trans2 (presInd_plant_step _ _)
      (presInd_trans2 (presInd_plant_step _ _) (presInd_plant_step (0, s) (x - 1, y))))

theorem presInd_update_source (x y : Nat) (e : Element) (s : SandBox) :
    PreservesInd s (update_source x y e s).2 := by
  simp only [update_source]
  split
  · exact presInd_set_element ..
  · exact presInd_refl s

theorem presInd_update_air (x y : Nat) (s : SandBox) :
    PreservesInd s (update_air x y s).2 := by
  simp only [update_air]
  split
  · exact presInd_set_element ..
  · exact presInd_refl s

theorem presInd_update_life (x y : Nat) (s : SandBox) :
    PreservesInd s (update_life x y s).2 := by
  simp only [update_life]
  split
  · exact presInd_set_element ..
  · exact presInd_refl s

theorem presInd_update_cell (x y : Nat) (s : SandBox) :
    PreservesInd s (update_cell x y s) := by
  simp only [update_cell]
  split
  · exact presInd_refl s
  · cases helem : (s.get x y).element
    case Air =>
      split
      · exact presInd_update_air ..
      · exact presInd_trans2 (presInd_set_visited ..) (presInd_update_air ..)
    case Sand =>
      split
      · exact presInd_update_sand x y s (by rw [helem]; decide)
      · exact presInd_trans2 (presInd_set_visited ..)
          (presInd_update_sand x y s (by rw [helem]; decide))
    case Water =>
      split
      · exact presInd_update_water ..
      · exact presInd_trans2 (presInd_set_visited ..) (presInd_update_water ..)
    case Acid =>
      split
      · exact presInd_update_acid x y s (by rw [helem]; decide)
      · exact presInd_trans2 (presInd_set_visited ..)
          (presInd_update_acid x y s (by rw [helem]; decide))
    case Oil =>
      split
      · exact presInd_update_oil ..
      · exact presInd_trans2 (presInd_set_visited ..) (presInd_update_oil ..)
    case Drain =>
      split
      · exact presInd_update_drain ..
      · exact presInd_trans2 (presInd_set_visited ..) (presInd_update_drain ..)
    case Fire =>
      split
      · exact presInd_update_fire ..
      · exact presInd_trans2 (presInd_set_visited ..) (presInd_update_fire ..)
    case Ash =>
      split
      · exact presInd_update_ash x y s (by rw [helem]; decide)
      · exact presInd_trans2 (presInd_set_visited ..)
          (presInd_update_ash x y s (by rw [helem]; decide))
    case Lava =>
      split
      · exact presInd_update_lava x y s (by rw [helem]; decide)
      · exact presInd_trans2 (presInd_set_visited ..)
          (presInd_update_lava x y s (by rw [helem]; decide))
    case Smoke =>
      split
      · exact presInd_update_smoke ..
      · exact presInd_trans2 (presInd_set_visited ..) (presInd_update_smoke ..)
    case Life =>
      split
      · exact presInd_update_life ..
      · exact presInd_trans2 (presInd_set_visited ..) (presInd_update_life ..)
    case Iron =>
      split
      · exact presInd_update_iron ..
      · exact presInd_trans2 (presInd_set_visited ..) (presInd_update_iron ..)
    case Rust =>
      split
      · exact presInd_update_sand x y s (by rw [helem]; decide)
      · exact presInd_trans2 (presInd_set_visited ..)
          (presInd_update_sand x y s (by rw [helem]; decide))
    case Plant =>
      split
      · exact presInd_update_plant ..
      · exact presInd_trans2 (presInd_set_visited ..) (presInd_update_plant ..)
    case Wood => exact presInd_set_visited s x y
    case Rock => exact presInd_set_visited s x y
    case Indestructible => exact presInd_set_visited s x y
    case WaterSource =>
      split
      · exact presInd_update_source ..
      · exact presInd_trans2 (presInd_set_visited ..) (presInd_update_source ..)
    case AcidSource =>
      split
      · exact presInd_update_source ..
      · exact presInd_trans2 (presInd_set_visited ..) (presInd_update_source ..)
    case OilSource =>
      split
      · exact presInd_update_source ..
      · exact presInd_trans2 (presInd_set_visited ..) (presInd_update_source ..)
    case LavaSource =>
      split
      · exact presInd_update_source ..
      · exact presInd_trans2 (presInd_set_visited ..) (presInd_update_source ..)
    case FireSource =>
      split
      · exact presInd_update_source ..
      · exact presInd_trans2 (presInd_set_visited ..) (presInd_update_source ..)

/-- Border invariant: every cell on the outer ring holds Indestructible. -/
def BorderInd (s : SandBox) : Prop :=
  ∀ x y, x < s.width → y < s.height →
    (x = 0 ∨ x = s.width - 1 ∨ y = 0 ∨ y = s.height - 1) →
    (s.get x y).element = Element.Indestructible

theorem borderInd_of_presInd {s t : SandBox} (h : PreservesInd s t) (hb : BorderInd s) :
    BorderInd t := by
  obtain ⟨hw, hh, _, _, he⟩ := h
  intro x y hx hy hxy
  rw [elemAt_get]
  have hidx : t.index x y = s.index x y := by simp [SandBox.index, hw]
  rw [hidx]
  apply he
  rw [← elemAt_get]
  refine hb x y ?_ ?_ ?_
  · rw [← hw]; exact hx
  · rw [← hh]; exact hy
  · rw [← hw, ← hh]; exact hxy

theorem presInd_foldl {α : Type} (f : SandBox → α → SandBox)
    (hf : ∀ t a, PreservesInd t (f t a)) (L : List α) :
    ∀ s, PreservesInd s (L.foldl f s) := by
  induction L with
  | nil => intro s; exact presInd_refl s
  | cons a as ih =>
    intro s
    exact presInd_trans (hf s a) (ih (f s a))

theorem borderInd_toggle (s : SandBox) (hb : BorderInd s) :
    BorderInd (s.toggle_visited_state).2 :=
  hb

/-- The sweep of a tick only applies update_cell steps, so it preserves
every Indestructible cell; together with the trivial toggle this keeps
the border intact. -/
theorem borderInd_tick (s : SandBox) (sim : Simulation) (hb : BorderInd s) :
    BorderInd (level_updater s sim).1 := by
  by_cases hrun : sim.running || sim.step
  · simp only [level_updater, if_pos hrun]
    exact borderInd_of_presInd
      (presInd_foldl _
        (fun t a => by
          split
          · exact presInd_foldl _ (fun u b => presInd_update_cell b a u) _ t
          · exact presInd_foldl _ (fun u b => presInd_update_cell b a u) _ t)
        _ _)
      (borderInd_toggle s hb)
  · simp only [level_updater, if_neg hrun]
    exact hb

theorem width_tick (s : SandBox) (sim : Simulation) :
    (level_updater s sim).1.width = s.width ∧ (level_updater s sim).1.height = s.height ∧
    (level_updater s sim).1.cells.length = s.cells.length := by
  by_cases hrun : sim.running || sim.step
  · simp only [level_updater, if_pos hrun]
    have h := presInd_foldl
      (fun u y =>
        if (s.toggle_visited_state).1 = true then
          (List.range' 1 ((s.toggle_visited_state).2.width - 1 - 1)).foldl
            (fun v x => update_cell x y v) u
        else
          (List.range' 1 ((s.toggle_visited_state).2.width - 1 - 1)).reverse.foldl
            (fun v x => update_cell x y v) u)
      (fun t a => by
        split
        · exact presInd_foldl _ (fun u b => presInd_update_cell b a u) _ t
        · exact presInd_foldl _ (fun u b => presInd_update_cell b a u) _ t)
      (List.range' 1 ((s.toggle_visited_state).2.height - 1 - 1)).reverse
      (s.toggle_visited_state).2
    exact ⟨h.1, h.2.1, h.2.2.1⟩
  · simp [level_updater, hrun]

theorem elemAt_set_element (s : SandBox) (x y : Nat) (e : Element) (src : Bool) (i : Nat) :
    elemAt (s.set_element x y e src) i =
      if (s.get x y).element = Element.Indestructible then elemAt s i
      else if i = s.index x y ∧ s.index x y < s.cells.length then e
      else elemAt s i := by
  by_cases hg : (s.get x y).element = Element.Indestructible
  · rw [if_pos hg]
    simp only [SandBox.set_element, if_pos hg]
  · rw [if_neg hg]
    by_cases hf : e.randomize_color_factor_pos
    · simp only [SandBox.set_element, if_neg hg, if_pos hf]
      rw [elemAt_setCell]
      rfl
    · simp only [SandBox.set_element, if_neg hg, if_neg hf]
      rw [elemAt_setCell]

/-- Invariant carried through the border-stamping folds of new: the set S
of already-stamped raw indices holds Indestructible, everything else is
still the Air of the empty grid. -/
def QInd (S : Nat → Prop) (t : SandBox) : Prop :=
  (∀ i, S i → elemAt t i = Element.Indestructible) ∧
  (∀ i, ¬ S i → elemAt t i = Element.Air)

theorem qInd_mono {S T : Nat → Prop} {t : SandBox} (h : QInd S t) (hiff : ∀ i, T i ↔ S i) :
    QInd T t :=
  ⟨fun i hi => h.1 i ((hiff i).1 hi), fun i hi => h.2 i (fun hs => hi ((hiff i).2 hs))⟩

theorem qInd_set_element {S : Nat → Prop} {t : SandBox} (x y : Nat) (src : Bool)
    (hq : QInd S t) (hidx : t.index x y < t.cells.length) :
    QInd (fun i => S i ∨ i = t.index x y)
      (t.set_element x y Element.Indestructible src) := by
  obtain ⟨h1, h2⟩ := hq
  constructor
  · intro i hi
    rw [elemAt_set_element]
    by_cases hg : (t.get x y).element = Element.Indestructible
    · rw [if_pos hg]
      rcases hi with hs | rfl
      · exact h1 i hs
      · rw [elemAt_get] at hg
        exact hg
    · rw [if_neg hg]
      rcases hi with hs | rfl
      · by_cases hie : i = t.index x y
        · subst hie
          rw [if_pos ⟨rfl, hidx⟩]
        · rw [if_neg (by tauto)]
          exact h1 i hs
      · rw [if_pos ⟨rfl, hidx⟩]
  · intro i hi
    have hs : ¬ S i := fun h0 => hi (Or.inl h0)
    have hne : i ≠ t.index x y := fun h0 => hi (Or.inr h0)
    rw [elemAt_set_element]
    by_cases hg : (t.get x y).element = Element.Indestructible
    · rw [if_pos hg]
      exact h2 i hs
    · rw [if_neg hg, if_neg (by tauto)]
      exact h2 i hs

theorem elemAt_empty (w h : Nat) (rng : List Nat) (i : Nat) :
    elemAt (SandBox.empty w h rng) i = Element.Air := by
  simp only [elemAt, SandBox.empty, List.getD, List.get?_eq_getElem?, List.getElem?_replicate]
  split <;> rfl

theorem qInd_fold_topbot (xs : List Nat) :
    ∀ (S : Nat → Prop) (t : SandBox),
      QInd S t → t.cells.length = t.width * t.height → 0 < t.height →
      (∀ x, x ∈ xs → x < t.width) →
      QInd (fun i => S i ∨ ∃ x, x ∈ xs ∧ (i = t.index x 0 ∨ i = t.index x (t.height - 1)))
        (xs.foldl
          (fun u x => (u.set_element x 0 Element.Indestructible false).set_element
            x (u.height - 1) Element.Indestructible false) t) := by
  induction xs with
  | nil =>
    intro S t hq _ _ _
    exact qInd_mono hq (by simp)
  | cons x xs ih =>
    intro S t hq hlen hh hxs
    simp only [List.foldl_cons]
    have hx : x < t.width := hxs x (List.mem_cons_self x xs)
    obtain ⟨w1, h1e, l1, -, -⟩ := presInd_set_element t x 0 Element.Indestructible false
    have hidx1 : t.index x 0 < t.cells.length := index_lt_length t x 0 hx hh hlen
    have q1 := qInd_set_element (S := S) x 0 false hq hidx1
    set t1 := t.set_element x 0 Element.Indestructible false with ht1
    obtain ⟨w2, h2e, l2, -, -⟩ :=
      presInd_set_element t1 x (t.height - 1) Element.Indestructible false
    have hh1 : 0 < t1.height := by rw [h1e]; exact hh
    have hlen1 : t1.cells.length = t1.width * t1.height := by rw [l1, w1, h1e]; exact hlen
    have hx1 : x < t1.width := by rw [w1]; exact hx
    have hidx2 : t1.index x (t.height - 1) < t1.cells.length :=
      index_lt_length t1 x (t.height - 1) hx1 (by rw [h1e]; omega) hlen1
    have q2 := qInd_set_element (S := fun i => S i ∨ i = t.index x 0)
      x (t.height - 1) false q1 hidx2
    set t2 := t1.set_element x (t.height - 1) Element.Indestructible false with ht2
    have hlen2 : t2.cells.length = t2.width * t2.height := by rw [l2, w2, h2e]; exact hlen1
    have hh2 : 0 < t2.height := by rw [h2e]; exact hh1
    have hxs2 : ∀ a, a ∈ xs → a < t2.width := by
      intro a ha
      rw [w2, w1]
      exact hxs a (List.mem_cons_of_mem x ha)
    have hres := ih (fun i => (S i ∨ i = t.index x 0) ∨ i = t1.index x (t.height - 1))
      t2 q2 hlen2 hh2 hxs2
    refine qInd_mono hres ?_
    intro i
    have e1 : ∀ a b, t1.index a b = t.index a b := by
      intro a b
      simp [SandBox.index, w1]
    have e2 : ∀ a b, t2.index a b = t.index a b := by
      intro a b
      simp [SandBox.index, w2, w1]
    have e3 : t1.height = t.height := h1e
    have e4 : t2.height = t.height := by rw [h2e, h1e]
    simp only [e1, e2, e3, e4, List.mem_cons]
    constructor
    · rintro (hs | ⟨a, (rfl | ha), hor⟩)
      · tauto
      · tauto
      · exact Or.inr ⟨a, ha, hor⟩
    · rintro (((hs | h0) | hh0) | ⟨a, ha, hor⟩)
      · tauto
      · exact Or.inr ⟨x, Or.inl rfl, Or.inl h0⟩
      · exact Or.inr ⟨x, Or.inl rfl, Or.inr hh0⟩
      · exact Or.inr ⟨a, Or.inr ha, hor⟩

theorem qInd_fold_leftright (ys : List Nat) :
    ∀ (S : Nat → Prop) (t : SandBox),
      QInd S t → t.cells.length = t.width * t.height → 0 < t.width →
      (∀ y, y ∈ ys → y < t.height) →
      QInd (fun i => S i ∨ ∃ y, y ∈ ys ∧ (i = t.index 0 y ∨ i = t.index (t.width - 1) y))
        (ys.foldl
          (fun u y => (u.set_element 0 y Element.Indestructible false).set_element
            (u.width - 1) y Element.Indestructible false) t) := by
  induction ys with
  | nil =>
    intro S t hq _ _ _
    exact qInd_mono hq (by simp)
  | cons y ys ih =>
    intro S t hq hlen hw hys
    simp only [List.foldl_cons]
    have hy : y < t.height := hys y (List.mem_cons_self y ys)
    obtain ⟨w1, h1e, l1, -, -⟩ := presInd_set_element t 0 y Element.Indestructible false
    have hidx1 : t.index 0 y < t.cells.length := index_lt_length t 0 y hw hy hlen
    have q1 := qInd_set_element (S := S) 0 y false hq hidx1
    set t1 := t.set_element 0 y Element.Indestructible false with ht1
    obtain ⟨w2, h2e, l2, -, -⟩ :=
      presInd_set_element t1 (t.width - 1) y Element.Indestructible false
    have hw1 : 0 < t1.width := by rw [w1]; exact hw
    have hlen1 : t1.cells.length = t1.width * t1.height := by rw [l1, w1, h1e]; exact hlen
    have hy1 : y < t1.height := by rw [h1e]; exact hy
    have hidx2 : t1.index (t.width - 1) y < t1.cells.length :=
      index_lt_length t1 (t.width - 1) y (by rw [w1]; omega) hy1 hlen1
    have q2 := qInd_set_element (S := fun i => S i ∨ i = t.index 0 y)
      (t.width - 1) y false q1 hidx2
    set t2 := t1.set_element (t.width - 1) y Element.Indestructible false with ht2
    have hlen2 : t2.cells.length = t2.width * t2.height := by rw [l2, w2, h2e]; exact hlen1
    have hw2 : 0 < t2.width := by rw [w2]; exact hw1
    have hys2 : ∀ a, a ∈ ys → a < t2.height := by
      intro a ha
      rw [h2e, h1e]
      exact hys a (List.mem_cons_of_mem y ha)
    have hres := ih (fun i => (S i ∨ i = t.index 0 y) ∨ i = t1.index (t.width - 1) y)
      t2 q2 hlen2 hw2 hys2
    refine qInd_mono hres ?_
    intro i
    have e1 : ∀ a b, t1.index a b = t.index a b := by
      intro a b
      simp [SandBox.index, w1]
    have e2 : ∀ a b, t2.index a b = t.index a b := by
      intro a b
      simp [SandBox.index, w2, w1]
    have e3 : t1.width = t.width := w1
    have e4 : t2.width = t.width := by rw [w2, w1]
    simp only [e1, e2, e3, e4, List.mem_cons]
    constructor
    · rintro (hs | ⟨a, (rfl | ha), hor⟩)
      · tauto
      · tauto
      · exact Or.inr ⟨a, ha, hor⟩
    · rintro (((hs | h0) | hh0) | ⟨a, ha, hor⟩)
      · tauto
      · exact Or.inr ⟨y, Or.inl rfl, Or.inl h0⟩
      · exact Or.inr ⟨y, Or.inl rfl, Or.inr hh0⟩
      · exact Or.inr ⟨a, Or.inr ha, hor⟩

theorem rowmajor_inj (w : Nat) {x y a b : Nat} (hx : x < w) (ha : a < w)
    (h : x + y * w = a + b * w) : x = a ∧ b = y := by
  have h1 : (x + y * w) % w = x % w := Nat.add_mul_mod_self_right ..
  have h2 : (a + b * w) % w = a % w := Nat.add_mul_mod_self_right ..
  rw [Nat.mod_eq_of_lt hx] at h1
  rw [Nat.mod_eq_of_lt ha] at h2
  rw [h] at h1
  have hxa : x = a := by omega
  subst hxa
  refine ⟨rfl, ?_⟩
  have hw : 0 < w := by omega
  have hmul : y * w = b * w := by omega
  exact (Nat.eq_of_mul_eq_mul_right hw hmul).symm

theorem presInd_new_from_empty (w h : Nat) (rng : List Nat) :
    PreservesInd (SandBox.empty w h rng) (SandBox.new w h rng) := by
  simp only [SandBox.new]
  exact presInd_trans
    (presInd_foldl _
      (fun t a => presInd_trans (presInd_set_element t a 0 Element.Indestructible false)
        (presInd_set_element _ a _ Element.Indestructible false))
      _ _)
    (presInd_foldl _
      (fun t a => presInd_trans (presInd_set_element t 0 a Element.Indestructible false)
        (presInd_set_element _ _ a Element.Indestructible false))
      _ _)

theorem new_fields (w h : Nat) (rng : List Nat) :
    (SandBox.new w h rng).width = w ∧ (SandBox.new w h rng).height = h ∧
    (SandBox.new w h rng).cells.length = w * h ∧
    (SandBox.new w h rng).visited_state = false := by
  obtain ⟨hw, hh, hl, hv, -⟩ := presInd_new_from_empty w h rng
  refine ⟨hw.trans rfl, hh.trans rfl, hl.trans ?_, hv.trans rfl⟩
  simp [SandBox.empty]

/-- Full characterization of the constructed grid: the border ring is
Indestructible and the interior is Air. -/
theorem new_elem_spec (w h : Nat) (rng : List Nat) (hw : 2 ≤ w) (hh : 2 ≤ h)
    (x y : Nat) (hx : x < w) (hy : y < h) :
    ((SandBox.new w h rng).get x y).element =
      if x = 0 ∨ x = w - 1 ∨ y = 0 ∨ y = h - 1 then Element.Indestructible
      else Element.Air := by
  have q0 : QInd (fun _ => False) (SandBox.empty w h rng) :=
    ⟨fun i hi => hi.elim, fun i _ => elemAt_empty w h rng i⟩
  have hempty_len : (SandBox.empty w h rng).cells.length =
      (SandBox.empty w h rng).width * (SandBox.empty w h rng).height := by
    simp [SandBox.empty]
  have hempty_h : 0 < (SandBox.empty w h rng).height := by
    show 0 < h
    omega
  have hxs : ∀ a, a ∈ List.range (SandBox.empty w h rng).width →
      a < (SandBox.empty w h rng).width := fun a ha => List.mem_range.mp ha
  have q1 := qInd_fold_topbot (List.range (SandBox.empty w h rng).width)
      (fun _ => False) (SandBox.empty w h rng) q0 hempty_len hempty_h hxs
  have hpres := presInd_foldl
      (fun u x => (u.set_element x 0 Element.Indestructible false).set_element
        x (u.height - 1) Element.Indestructible false)
      (fun t a => presInd_trans (presInd_set_element t a 0 Element.Indestructible false)
        (presInd_set_element _ a _ Element.Indestructible false))
      (List.range (SandBox.empty w h rng).width) (SandBox.empty w h rng)
  set mid := (List.range (SandBox.empty w h rng).width).foldl
      (fun u x => (u.set_element x 0 Element.Indestructible false).set_element
        x (u.height - 1) Element.Indestructible false)
      (SandBox.empty w h rng) with hmid
  obtain ⟨mw, mh, ml, -, -⟩ := hpres
  have hmid_len : mid.cells.length = mid.width * mid.height := by
    rw [ml, mw, mh]
    exact hempty_len
  have hmid_w : 0 < mid.width := by
    rw [mw]
    show 0 < w
    omega
  have hys : ∀ a, a ∈ List.range mid.height → a < mid.height :=
    fun a ha => List.mem_range.mp ha
  have q2 := qInd_fold_leftright (List.range mid.height) _ mid q1 hmid_len hmid_w hys
  have hmw : mid.width = w := mw.trans rfl
  have hmh : mid.height = h := mh.trans rfl
  have hsubj : (List.range mid.height).foldl
      (fun u y => (u.set_element 0 y Element.Indestructible false).set_element
        (u.width - 1) y Element.Indestructible false) mid = SandBox.new w h rng := by
    rw [hmid]
    rfl
  rw [hsubj] at q2
  obtain ⟨nw, nh, nl, nv⟩ := new_fields w h rng
  have hidx : (SandBox.new w h rng).index x y = x + y * w := by
    simp [SandBox.index, nw]
  rw [elemAt_get, hidx]
  by_cases hb : x = 0 ∨ x = w - 1 ∨ y = 0 ∨ y = h - 1
  · rw [if_pos hb]
    apply q2.1
    rcases hb with rfl | rfl | rfl | rfl
    · refine Or.inr ⟨y, ?_, Or.inl ?_⟩
      · rw [List.mem_range, hmh]
        exact hy
      · show 0 + y * w = mid.index 0 y
        simp [SandBox.index, hmw]
    · refine Or.inr ⟨y, ?_, Or.inr ?_⟩
      · rw [List.mem_range, hmh]
        exact hy
      · show w - 1 + y * w = mid.index (mid.width - 1) y
        simp [SandBox.index, hmw]
    · refine Or.inl (Or.inr ⟨x, ?_, Or.inl ?_⟩)
      · show x ∈ List.range w
        rw [List.mem_range]
        exact hx
      · show x + 0 * w = x + 0 * w
        rfl
    · refine Or.inl (Or.inr ⟨x, ?_, Or.inr ?_⟩)
      · show x ∈ List.range w
        rw [List.mem_range]
        exact hx
      · show x + (h - 1) * w = x + (h - 1) * w
        rfl
  · rw [if_neg hb]
    apply q2.2
    push_neg at hb
    rintro ((hf | ⟨a, hamem, (h1 | h2)⟩) | ⟨b, hbmem, (h3 | h4)⟩)
    · exact hf
    · have ha : a < w := List.mem_range.mp hamem
      have h1a : x + y * w = a + 0 * w := h1
      obtain ⟨-, hy0⟩ := rowmajor_inj w hx ha h1a
      exact hb.2.2.1 hy0.symm
    · have ha : a < w := List.mem_range.mp hamem
      have h2a : x + y * w = a + (h - 1) * w := h2
      obtain ⟨-, hyh⟩ := rowmajor_inj w hx ha h2a
      exact hb.2.2.2 hyh.symm
    · rw [show mid.index 0 b = 0 + b * w from by simp [SandBox.index, hmw]] at h3
      obtain ⟨hx0, -⟩ := rowmajor_inj w hx (show 0 < w by omega) h3
      exact hb.1 hx0
    · rw [show mid.index (mid.width - 1) b = (w - 1) + b * w from by
        simp [SandBox.index, hmw]] at h4
      obtain ⟨hxw, -⟩ := rowmajor_inj w hx (show w - 1 < w by omega) h4
      exact hb.2.1 hxw

theorem clear_write_idem (c : Cell) (v : Bool) :
    ({ { c with element := Element.Air, visited := v } with
        element := Element.Air, visited := v } : Cell) =
      { c with element := Element.Air, visited := v } := rfl

theorem fields_foldl {α : Type} (f : SandBox → α → SandBox)
    (hf : ∀ t a, (f t a).width = t.width ∧ (f t a).height = t.height ∧
      (f t a).visited_state = t.visited_state ∧ (f t a).cells.length = t.cells.length)
    (L : List α) :
    ∀ s, ((L.foldl f s).width = s.width ∧ (L.foldl f s).height = s.height ∧
      (L.foldl f s).visited_state = s.visited_state ∧
      (L.foldl f s).cells.length = s.cells.length) := by
  induction L with
  | nil => intro s; exact ⟨rfl, rfl, rfl, rfl⟩
  | cons a as ih =>
    intro s
    obtain ⟨w2, h2, v2, l2⟩ := ih (f s a)
    obtain ⟨w1, h1, v1, l1⟩ := hf s a
    exact ⟨w2.trans w1, h2.trans h1, v2.trans v1, l2.trans l1⟩

theorem get_clear_row (y : Nat) (xs : List Nat) :
    ∀ (t : SandBox) (a b : Nat),
      (∀ x0, x0 ∈ xs → x0 < t.width) → y < t.height → a < t.width → b < t.height →
      t.cells.length = t.width * t.height →
      ((xs.foldl (fun u x => u.setCell x y
          { u.get x y with element := Element.Air, visited := u.visited_state }) t).get a b) =
        if a ∈ xs ∧ b = y then
          { t.get a b with element := Element.Air, visited := t.visited_state }
        else t.get a b := by
  induction xs with
  | nil =>
    intro t a b _ _ _ _ _
    simp
  | cons x0 xs ih =>
    intro t a b hxs hy ha hb hlen
    simp only [List.foldl_cons]
    have hx0 : x0 < t.width := hxs x0 (List.mem_cons_self x0 xs)
    have hstep := get_setCell t x0 y
      { t.get x0 y with element := Element.Air, visited := t.visited_state } a b hx0 hy ha hb hlen
    rw [ih (t.setCell x0 y { t.get x0 y with element := Element.Air, visited := t.visited_state })
        a b (fun z hz => hxs z (List.mem_cons_of_mem x0 hz)) hy ha hb
        (by rw [length_setCell]; exact hlen)]
    rw [visited_state_setCell, hstep]
    by_cases h1 : b = y
    · subst h1
      by_cases h2 : a = x0
      · subst h2
        by_cases h3 : a ∈ xs <;>
          simp [h3, List.mem_cons, clear_write_idem]
      · by_cases h3 : a ∈ xs <;>
          simp [h2, h3, List.mem_cons]
    · have hc1 : ¬(a ∈ xs ∧ b = y) := by tauto
      have hc2 : ¬(a = x0 ∧ b = y) := by tauto
      have hc3 : ¬(a ∈ x0 :: xs ∧ b = y) := by tauto
      rw [if_neg hc1, if_neg hc2, if_neg hc3]

theorem get_clear_rows (ys : List Nat) :
    ∀ (t : SandBox) (a b : Nat),
      (∀ y0, y0 ∈ ys → y0 < t.height) → a < t.width → b < t.height →
      t.cells.length = t.width * t.height →
      ((ys.foldl (fun u y => (List.range' 1 (u.width - 1 - 1)).foldl
          (fun v x => v.setCell x y
            { v.get x y with element := Element.Air, visited := v.visited_state }) u) t).get a b) =
        if a ∈ List.range' 1 (t.width - 1 - 1) ∧ b ∈ ys then
          { t.get a b with element := Element.Air, visited := t.visited_state }
        else t.get a b := by
  induction ys with
  | nil =>
    intro t a b _ _ _ _
    simp
  | cons y0 ys ih =>
    intro t a b hys ha hb hlen
    simp only [List.foldl_cons]
    have hy0 : y0 < t.height := hys y0 (List.mem_cons_self y0 ys)
    have hxsb : ∀ z, z ∈ List.range' 1 (t.width - 1 - 1) → z < t.width := by
      intro z hz
      rw [List.mem_range'_1] at hz
      omega
    have hrow := get_clear_row y0 (List.range' 1 (t.width - 1 - 1)) t a b hxsb hy0 ha hb hlen
    obtain ⟨fw, fh, fv, fl⟩ := fields_foldl
      (fun u x => u.setCell x y0
        { u.get x y0 with element := Element.Air, visited := u.visited_state })
      (fun u x => ⟨rfl, rfl, rfl, length_setCell ..⟩)
      (List.range' 1 (t.width - 1 - 1)) t
    set t1 := (List.range' 1 (t.width - 1 - 1)).foldl
      (fun u x => u.setCell x y0
        { u.get x y0 with element := Element.Air, visited := u.visited_state }) t with ht1
    rw [ih t1 a b (fun z hz => by rw [fh]; exact hys z (List.mem_cons_of_mem y0 hz))
        (by rw [fw]; exact ha) (by rw [fh]; exact hb)
        (by rw [fl, fw, fh]; exact hlen)]
    rw [fw, fv, hrow]
    by_cases h1 : a ∈ List.range' 1 (t.width - 1 - 1)
    · by_cases h2 : b = y0
      · subst h2
        by_cases h3 : b ∈ ys <;>
          simp [h1, h3, List.mem_cons, clear_write_idem]
      · by_cases h3 : b ∈ ys <;>
          simp [h1, h2, h3, List.mem_cons]
    · have hc1 : ¬(a ∈ List.range' 1 (t.width - 1 - 1) ∧ b ∈ ys) := by tauto
      have hc2 : ¬(a ∈ List.range' 1 (t.width - 1 - 1) ∧ b = y0) := by tauto
      have hc3 : ¬(a ∈ List.range' 1 (t.width - 1 - 1) ∧ b ∈ y0 :: ys) := by tauto
      rw [if_neg hc1, if_neg hc2, if_neg hc3]

/-- Full characterization of clear: interior cells keep their variant,
strength and source and only get element Air and the current parity;
everything else, the border included, is untouched. -/
theorem clear_get_spec (s : SandBox) (a b : Nat) (ha : a < s.width) (hb : b < s.height)
    (hlen : s.cells.length = s.width * s.height) :
    s.clear.get a b =
      if 1 ≤ a ∧ a ≤ s.width - 2 ∧ 1 ≤ b ∧ b ≤ s.height - 2 then
        { s.get a b with element := Element.Air, visited := s.visited_state }
      else s.get a b := by
  have hys : ∀ z, z ∈ List.range' 1 (s.height - 1 - 1) → z < s.height := by
    intro z hz
    rw [List.mem_range'_1] at hz
    omega
  have h := get_clear_rows (List.range' 1 (s.height - 1 - 1)) s a b hys ha hb hlen
  simp only [SandBox.clear]
  rw [h]
  by_cases hcond : 1 ≤ a ∧ a ≤ s.width - 2 ∧ 1 ≤ b ∧ b ≤ s.height - 2
  · rw [if_pos hcond, if_pos]
    constructor
    · rw [List.mem_range'_1]
      omega
    · rw [List.mem_range'_1]
      omega
  · rw [if_neg hcond, if_neg]
    rw [List.mem_range'_1, List.mem_range'_1]
    omega

theorem borderInd_new (w h : Nat) (rng : List Nat) (hw : 2 ≤ w) (hh : 2 ≤ h) :
    BorderInd (SandBox.new w h rng) := by
  obtain ⟨nw, nh, -, -⟩ := new_fields w h rng
  intro x y hx hy hxy
  rw [nw] at hx hxy
  rw [nh] at hy hxy
  rw [new_elem_spec w h rng hw hh x y hx hy, if_pos hxy]

theorem clear_fields (s : SandBox) :
    s.clear.width = s.width ∧ s.clear.height = s.height ∧
    s.clear.visited_state = s.visited_state ∧ s.clear.cells.length = s.cells.length := by
  simp only [SandBox.clear]
  exact fields_foldl _
    (fun t a => fields_foldl
      (fun u x => u.setCell x a
        { u.get x a with element := Element.Air, visited := u.visited_state })
      (fun u x => ⟨rfl, rfl, rfl, length_setCell ..⟩) _ t) _ s

theorem borderInd_clear (s : SandBox) (hb : BorderInd s)
    (hlen : s.cells.length = s.width * s.height) : BorderInd s.clear := by
  obtain ⟨cw, ch, -, -⟩ := clear_fields s
  intro x y hx hy hxy
  rw [cw] at hx hxy
  rw [ch] at hy hxy
  rw [clear_get_spec s x y hx hy hlen, if_neg]
  · exact hb x y hx hy hxy
  · rintro ⟨h1, h2, h3, h4⟩
    rcases hxy with rfl | rfl | rfl | rfl <;> omega

/-- C1: after SandBox::new(width, height) every border cell holds
Indestructible and every interior cell holds Air, and in every state
reachable from construction by set_element, swap, clear_cell, clear and
simulation ticks, the border still holds Indestructible. -/
theorem sandbox_border_invariant (w h : Nat) (rng : List Nat) (hw : 2 ≤ w) (hh : 2 ≤ h) :
    (∀ x y, x < w → y < h →
      ((x = 0 ∨ x = w - 1 ∨ y = 0 ∨ y = h - 1) →
        ((SandBox.new w h rng).get x y).element = Element.Indestructible)
      ∧ (¬(x = 0 ∨ x = w - 1 ∨ y = 0 ∨ y = h - 1) →
        ((SandBox.new w h rng).get x y).element = Element.Air))
    ∧ (∀ s, Reachable w h rng s →
        s.width = w ∧ s.height = h ∧
        ∀ x y, x < w → y < h → (x = 0 ∨ x = w - 1 ∨ y = 0 ∨ y = h - 1) →
          (s.get x y).element = Element.Indestructible) := by
  constructor
  · intro x y hx hy
    constructor
    · intro hxy
      rw [new_elem_spec w h rng hw hh x y hx hy, if_pos hxy]
    · intro hxy
      rw [new_elem_spec w h rng hw hh x y hx hy, if_neg hxy]
  · intro s hs
    have main : s.width = w ∧ s.height = h ∧ s.cells.length = w * h ∧ BorderInd s := by
      induction hs with
      | base =>
        obtain ⟨nw, nh, nl, -⟩ := new_fields w h rng
        exact ⟨nw, nh, nl, borderInd_new w h rng hw hh⟩
      | set_element s0 x y e src hr ih =>
        obtain ⟨hw0, hh0, hl0, hb0⟩ := ih
        obtain ⟨pw, ph, pl, -, -⟩ := presInd_set_element s0 x y e src
        exact ⟨pw.trans hw0, ph.trans hh0, pl.trans hl0,
          borderInd_of_presInd (presInd_set_element s0 x y e src) hb0⟩
      | swap s0 x y x2 y2 hr ih =>
        obtain ⟨hw0, hh0, hl0, hb0⟩ := ih
        obtain ⟨pw, ph, pl, -, -⟩ := presInd_swap s0 x y x2 y2
        exact ⟨pw.trans hw0, ph.trans hh0, pl.trans hl0,
          borderInd_of_presInd (presInd_swap s0 x y x2 y2) hb0⟩
      | clear_cell s0 x y hr ih =>
        obtain ⟨hw0, hh0, hl0, hb0⟩ := ih
        obtain ⟨pw, ph, pl, -, -⟩ := presInd_clear_cell s0 x y
        exact ⟨pw.trans hw0, ph.trans hh0, pl.trans hl0,
          borderInd_of_presInd (presInd_clear_cell s0 x y) hb0⟩
      | clear s0 hr ih =>
        obtain ⟨hw0, hh0, hl0, hb0⟩ := ih
        obtain ⟨cw, ch, -, cl⟩ := clear_fields s0
        refine ⟨cw.trans hw0, ch.trans hh0, cl.trans hl0, borderInd_clear s0 hb0 ?_⟩
        rw [hl0, hw0, hh0]
      | tick s0 sim hr ih =>
        obtain ⟨hw0, hh0, hl0, hb0⟩ := ih
        obtain ⟨tw, th, tl⟩ := width_tick s0 sim
        exact ⟨tw.trans hw0, th.trans hh0, tl.trans hl0, borderInd_tick s0 sim hb0⟩
    obtain ⟨hw0, hh0, -, hb0⟩ := main
    refine ⟨hw0, hh0, fun x y hx hy hxy => ?_⟩
    apply hb0
    · rw [hw0]
      exact hx
    · rw [hh0]
      exact hy
    · rw [hw0, hh0]
      exact hxy

/-- Concrete instantiation of the border invariant on a 3-by-3 grid, after
construction and after an interior edit. -/
theorem sandbox_border_invariant_witness :
    ((SandBox.new 3 3 []).get 0 0).element = Element.Indestructible ∧
    ((SandBox.new 3 3 []).get 1 1).element = Element.Air ∧
    (((SandBox.new 3 3 []).set_element 1 1 Element.Sand true).get 2 1).element
      = Element.Indestructible := by
  refine ⟨?_, ?_, ?_⟩
  · exact ((sandbox_border_invariant 3 3 [] (by norm_num) (by norm_num)).1 0 0
      (by norm_num) (by norm_num)).1 (by tauto)
  · exact ((sandbox_border_invariant 3 3 [] (by norm_num) (by norm_num)).1 1 1
      (by norm_num) (by norm_num)).2 (by decide)
  · exact (((sandbox_border_invariant 3 3 [] (by norm_num) (by norm_num)).2 _
      (Reachable.set_element _ 1 1 Element.Sand true Reachable.base)).2.2 2 1
      (by norm_num) (by norm_num)) (by decide)

/-- C9: reduce_strength returns true and decrements the strength by one
when the strength is above one, and returns false without mutating
anything when the strength is at most one. -/
theorem reduce_strength_spec (s : SandBox) (x y a b : Nat)
    (hx : x < s.width) (hy : y < s.height) (ha : a < s.width) (hb : b < s.height)
    (hlen : s.cells.length = s.width * s.height) :
    (1 < (s.get x y).strength →
      (s.reduce_strength x y).1 = true ∧
      (s.reduce_strength x y).2.get a b =
        (if a = x ∧ b = y then
          { s.get x y with strength := (s.get x y).strength - 1 }
        else s.get a b))
    ∧ ((s.get x y).strength ≤ 1 → s.reduce_strength x y = (false, s)) := by
  constructor
  · intro hstr
    constructor
    · simp [SandBox.reduce_strength, hstr]
    · simp only [SandBox.reduce_strength, if_pos (show (s.get x y).strength > 1 from hstr)]
      exact get_setCell s x y _ a b hx hy ha hb hlen
  · intro hstr
    simp only [SandBox.reduce_strength,
      if_neg (show ¬ (s.get x y).strength > 1 by omega)]

/-- Concrete state used by several witnesses: a 3-by-3 bordered grid with
a Sand source cell in the single interior position. -/
def exBox : SandBox := (SandBox.new 3 3 []).set_element 1 1 Element.Sand true

theorem reduce_strength_spec_witness :
    1 < (exBox.get 1 1).strength ∧ (exBox.reduce_strength 1 1).1 = true := by
  constructor
  · decide
  · exact ((reduce_strength_spec exBox 1 1 1 1 (by decide) (by decide) (by decide)
      (by decide) (by decide)).1 (by decide)).1

/-- C5: set_element is a no-op on an Indestructible cell; otherwise it
overwrites the element, stamps the current parity, resets the strength to
the catalog default, sets the source flag, draws a fresh random variant
exactly when the catalog's color-variance factor is positive (consuming
the random stream exactly then), and touches no other cell. -/
theorem set_element_spec (s : SandBox) (x y : Nat) (e : Element) (src : Bool) (a b : Nat)
    (hx : x < s.width) (hy : y < s.height) (ha : a < s.width) (hb : b < s.height)
    (hlen : s.cells.length = s.width * s.height) :
    ((s.get x y).element = Element.Indestructible → s.set_element x y e src = s)
    ∧ ((s.get x y).element ≠ Element.Indestructible →
        ((s.set_element x y e src).get a b =
          (if a = x ∧ b = y then
            { element := e
              variant := if e.randomize_color_factor_pos then (s.gen_u8).1
                else (s.get x y).variant
              strength := e.strength
              visited := s.visited_state
              source := src }
          else s.get a b))
        ∧ (s.set_element x y e src).random_source =
            (if e.randomize_color_factor_pos then s.random_source.tail
             else s.random_source)) := by
  constructor
  · intro hg
    simp [SandBox.set_element, hg]
  · intro hg
    by_cases hf : e.randomize_color_factor_pos
    · constructor
      · rw [if_pos hf]
        simp only [SandBox.set_element, if_neg hg, if_pos hf]
        rw [get_setCell (s.gen_u8.2) x y _ a b (by exact hx) (by exact hy) (by exact ha)
          (by exact hb) (by exact hlen)]
        rfl
      · simp [SandBox.set_element, hg, hf, SandBox.gen_u8, SandBox.next_random,
          SandBox.setCell]
    · constructor
      · rw [if_neg hf]
        simp only [SandBox.set_element, if_neg hg, if_neg hf]
        rw [get_setCell s x y _ a b hx hy ha hb hlen]
      · simp [SandBox.set_element, hg, hf, SandBox.setCell]

theorem set_element_spec_witness :
    ((SandBox.new 3 3 [7]).set_element 1 1 Element.Sand true).get 1 1 =
      { element := Element.Sand, variant := 7, strength := 8,
        visited := false, source := true } := by
  have h := ((set_element_spec (SandBox.new 3 3 [7]) 1 1 Element.Sand true 1 1
    (by decide) (by decide) (by decide) (by decide) (by decide)).2 (by decide)).1
  rw [h]
  decide

/-- C4: swap is a no-op when either endpoint is Indestructible (the whole
grid, including the counterpart, is unchanged); otherwise it exchanges
the two full cell contents, stamping both with the current parity, and
leaves every other cell alone. -/
theorem swap_spec (s : SandBox) (x y x2 y2 a b : Nat)
    (hx : x < s.width) (hy : y < s.height) (hx2 : x2 < s.width) (hy2 : y2 < s.height)
    (ha : a < s.width) (hb : b < s.height)
    (hlen : s.cells.length = s.width * s.height) :
    (((s.get x y).element = Element.Indestructible ∨
      (s.get x2 y2).element = Element.Indestructible) → s.swap x y x2 y2 = s)
    ∧ (¬((s.get x y).element = Element.Indestructible ∨
        (s.get x2 y2).element = Element.Indestructible) →
        (s.swap x y x2 y2).get a b =
          (if a = x ∧ b = y then { s.get x2 y2 with visited := s.visited_state }
          else if a = x2 ∧ b = y2 then { s.get x y with visited := s.visited_state }
          else s.get a b)) := by
  constructor
  · intro hg
    simp [SandBox.swap, hg]
  · intro hg
    simp only [SandBox.swap, if_neg hg]
    rw [get_setCell _ x2 y2 _ a b (by exact hx2) (by exact hy2) (by exact ha) (by exact hb)
      (by rw [length_setCell]; exact hlen)]
    rw [get_setCell s x y _ a b hx hy ha hb hlen]
    by_cases h1 : a = x ∧ b = y
    · obtain ⟨rfl, rfl⟩ := h1
      by_cases h2 : a = x2 ∧ b = y2
      · obtain ⟨rfl, rfl⟩ := h2
        simp
      · simp [h2]
    · by_cases h2 : a = x2 ∧ b = y2
      · obtain ⟨rfl, rfl⟩ := h2
        simp [h1]
      · simp [h1, h2]

theorem swap_spec_witness :
    (exBox.swap 1 1 0 1) = exBox ∧
    ((SandBox.new 5 5 []).set_element 1 1 Element.Sand false).swap 1 1 2 1 ≠
      ((SandBox.new 5 5 []).set_element 1 1 Element.Sand false) := by
  constructor
  · exact (swap_spec exBox 1 1 0 1 0 0 (by decide) (by decide) (by decide) (by decide)
      (by decide) (by decide) (by decide)).1 (by decide)
  · decide

/-- Applying clear_cell (that is, set_element with Air) to every interior
cell in the same order clear uses; named so the inequivalence with clear
can be stated. -/
def clear_cell_each (s : SandBox) : SandBox :=
  (List.range' 1 (s.height - 1 - 1)).foldl
    (fun t y => (List.range' 1 (t.width - 1 - 1)).foldl (fun u x => u.clear_cell x y) t) s

/-- Concrete state separating clear from per-cell clear_cell: its interior
cell carries a set source flag, which clear keeps and clear_cell resets. -/
def exClear : SandBox := (SandBox.new 3 3 []).set_element 1 1 Element.Sand true

/-- C10: clear only rewrites the element and visited fields of interior
cells (element to Air, visited to the current parity), keeping strength,
variant and source and leaving the border untouched, and is therefore not
the same operation as clear_cell applied to every interior cell. -/
theorem clear_spec (s : SandBox) (a b : Nat) (ha : a < s.width) (hb : b < s.height)
    (hlen : s.cells.length = s.width * s.height) :
    (s.clear.get a b =
      (if 1 ≤ a ∧ a ≤ s.width - 2 ∧ 1 ≤ b ∧ b ≤ s.height - 2 then
        { s.get a b with element := Element.Air, visited := s.visited_state }
      else s.get a b))
    ∧ SandBox.clear exClear ≠ clear_cell_each exClear := by
  constructor
  · exact clear_get_spec s a b ha hb hlen
  · decide

theorem clear_spec_witness :
    (exClear.clear.get 1 1).source = true ∧ (exClear.clear.get 1 1).strength = 8 ∧
    (exClear.clear.get 1 1).element = Element.Air := by
  rw [(clear_spec exClear 1 1 (by decide) (by decide) (by decide)).1]
  decide

/-- C2: update_cell skips a cell whose visited flag equals the current
parity, leaving the whole grid unchanged; otherwise it dispatches to the
element's rule and, exactly when the rule returns false, stamps the
visited flag at the original coordinate. -/
theorem update_cell_spec (x y : Nat) (s : SandBox) :
    ((s.get x y).visited = s.visited_state → update_cell x y s = s)
    ∧ ((s.get x y).visited ≠ s.visited_state →
        update_cell x y s =
          (if (element_rule (s.get x y).element x y s).1 then
            (element_rule (s.get x y).element x y s).2
          else (element_rule (s.get x y).element x y s).2.set_visited x y)) := by
  constructor
  · intro hv
    simp [update_cell, SandBox.is_visited_state, hv]
  · intro hv
    simp only [update_cell, SandBox.is_visited_state, if_neg hv]
    cases helem : (s.get x y).element <;> simp [element_rule, helem]

theorem update_cell_spec_witness :
    update_cell 1 1 (SandBox.new 3 3 []) = SandBox.new 3 3 [] :=
  (update_cell_spec 1 1 (SandBox.new 3 3 [])).1 (by decide)

/-- The eight Moore-neighbour coordinates of a cell, as the spec lists
them. -/
def moore_neighbour_coords (x y : Nat) : List (Nat × Nat) :=
  [(x - 1, y - 1), (x, y - 1), (x + 1, y - 1), (x - 1, y), (x + 1, y),
   (x - 1, y + 1), (x, y + 1), (x + 1, y + 1)]

/-- Spec-side formulation of the live-neighbour count: how many of the
eight Moore neighbours hold Life. -/
def mooreLifeCount (s : SandBox) (x y : Nat) : Nat :=
  (moore_neighbour_coords x y).countP (fun p => decide ((s.get p.1 p.2).element = Element.Life))

set_option maxHeartbeats 4000000 in
theorem living_neighbours_eq_moore (s : SandBox) (x y : Nat) :
    living_neighbours s x y = mooreLifeCount s x y := by
  simp [living_neighbours, mooreLifeCount, moore_neighbour_coords,
    List.countP_cons, List.countP_nil]
  split_ifs <;> omega

theorem element_get_set_element (s : SandBox) (x y : Nat) (e : Element) (src : Bool)
    (hg : (s.get x y).element ≠ Element.Indestructible)
    (hidx : s.index x y < s.cells.length) :
    ((s.set_element x y e src).get x y).element = e := by
  have hw : (s.set_element x y e src).width = s.width :=
    (presInd_set_element s x y e src).1
  have hi : (s.set_element x y e src).index x y = s.index x y := by
    simp [SandBox.index, hw]
  rw [elemAt_get, hi, elemAt_set_element, if_neg hg, if_pos ⟨rfl, hidx⟩]

/-- C6: the Game-of-Life sub-rule.  An Air cell becomes Life exactly when
its Moore live-neighbour count is three; a Life cell becomes Air exactly
when that count is below two or above three, and otherwise persists with
the rule returning false. -/
theorem life_rule_spec (s : SandBox) (x y : Nat)
    (hx : x < s.width) (hy : y < s.height)
    (hlen : s.cells.length = s.width * s.height) :
    ((s.get x y).element = Element.Air →
      ((update_air x y s).2.get x y).element =
        (if mooreLifeCount s x y = 3 then Element.Life else Element.Air)
      ∧ (update_air x y s).1 = decide (mooreLifeCount s x y = 3))
    ∧ ((s.get x y).element = Element.Life →
      (((update_life x y s).2.get x y).element =
        (if mooreLifeCount s x y < 2 ∨ mooreLifeCount s x y > 3 then Element.Air
         else Element.Life))
      ∧ (2 ≤ mooreLifeCount s x y ∧ mooreLifeCount s x y ≤ 3 →
          update_life x y s = (false, s))) := by
  have hm := living_neighbours_eq_moore s x y
  have hidx := index_lt_length s x y hx hy hlen
  constructor
  · intro hair
    by_cases hcnt : mooreLifeCount s x y = 3
    · constructor
      · rw [if_pos hcnt]
        simp only [update_air, if_pos (hm.trans hcnt)]
        exact element_get_set_element s x y Element.Life false (by rw [hair]; decide) hidx
      · simp [update_air, hm, hcnt]
    · constructor
      · rw [if_neg hcnt]
        simp only [update_air, if_neg (fun hc => hcnt (hm.symm.trans hc ▸ rfl))]
        exact hair
      · simp [update_air, hm, hcnt]
  · intro hlife
    constructor
    · by_cases hcnt : mooreLifeCount s x y < 2 ∨ mooreLifeCount s x y > 3
      · rw [if_pos hcnt]
        simp only [update_life, if_pos (show living_neighbours s x y < 2 ∨
          living_neighbours s x y > 3 by rw [hm]; exact hcnt)]
        exact element_get_set_element s x y Element.Air false (by rw [hlife]; decide) hidx
      · rw [if_neg hcnt]
        simp only [update_life, if_neg (show ¬(living_neighbours s x y < 2 ∨
          living_neighbours s x y > 3) by rw [hm]; exact hcnt)]
        exact hlife
    · intro hrange
      simp only [update_life, if_neg (show ¬(living_neighbours s x y < 2 ∨
        living_neighbours s x y > 3) by rw [hm]; omega)]

/-- Concrete grid with three Life cells in a row under an Air cell. -/
def exLife : SandBox :=
  (((SandBox.new 5 5 []).set_element 1 1 Element.Life
    false).set_element 2 1 Element.Life false).set_element 3 1 Element.Life false

theorem life_rule_spec_witness :
    (exLife.get 2 2).element = Element.Air ∧ mooreLifeCount exLife 2 2 = 3 ∧
    ((update_air 2 2 exLife).2.get 2 2).element = Element.Life := by
  refine ⟨by decide, by decide, ?_⟩
  have h := ((life_rule_spec exLife 2 2 (by decide) (by decide) (by decide)).1 (by decide)).1
  rw [h]
  decide

/-- Spec-side sweep order: rows from height-2 down to 1, columns across
the interior, left to right on even parity and right to left on odd. -/
def sweepOrder (w h : Nat) (ltr : Bool) : List (Nat × Nat) :=
  ((List.range' 1 (h - 2)).reverse).flatMap (fun y =>
    (if ltr then List.range' 1 (w - 2) else (List.range' 1 (w - 2)).reverse).map
      (fun x => (x, y)))

theorem foldl_flatMap {α β γ : Type} (g : γ → List α) (f : β → α → β) (L : List γ) :
    ∀ init : β, (L.flatMap g).foldl f init =
      L.foldl (fun acc c => (g c).foldl f acc) init := by
  induction L with
  | nil => intro init; rfl
  | cons c cs ih =>
    intro init
    simp only [List.flatMap_cons, List.foldl_append, List.foldl_cons]
    exact ih _

theorem sweepOrder_foldl (w h : Nat) (ltr : Bool) (f : Nat → Nat → SandBox → SandBox)
    (init : SandBox) :
    (sweepOrder w h ltr).foldl (fun u p => f p.1 p.2 u) init =
      ((List.range' 1 (h - 2)).reverse).foldl
        (fun u y =>
          if ltr then (List.range' 1 (w - 2)).foldl (fun v x => f x y v) u
          else (List.range' 1 (w - 2)).reverse.foldl (fun v x => f x y v) u)
        init := by
  rw [sweepOrder, foldl_flatMap]
  congr 1
  funext u y
  by_cases hl : ltr = true
  · simp [hl, List.foldl_map]
  · simp [hl, List.foldl_map, List.foldl_reverse, List.foldr_map]

/-- Repeated running ticks from a state. -/
def run_ticks (s : SandBox) : Nat → SandBox
  | 0 => s
  | n + 1 => (level_updater (run_ticks s n) { running := true, step := false }).1

theorem visited_state_tick (s : SandBox) (sim : Simulation)
    (hrun : (sim.running || sim.step) = true) :
    (level_updater s sim).1.visited_state = !s.visited_state := by
  simp only [level_updater, if_pos hrun]
  have h := presInd_foldl
    (fun u y =>
      if (s.toggle_visited_state).1 = true then
        (List.range' 1 ((s.toggle_visited_state).2.width - 1 - 1)).foldl
          (fun v x => update_cell x y v) u
      else
        (List.range' 1 ((s.toggle_visited_state).2.width - 1 - 1)).reverse.foldl
          (fun v x => update_cell x y v) u)
    (fun t a => by
      split
      · exact presInd_foldl _ (fun u b => presInd_update_cell b a u) _ t
      · exact presInd_foldl _ (fun u b => presInd_update_cell b a u) _ t)
    (List.range' 1 ((s.toggle_visited_state).2.height - 1 - 1)).reverse
    (s.toggle_visited_state).2
  exact h.2.2.2.1

/-- C3: a tick runs exactly when running or a pending step request is set,
consuming the request; the sweep toggles the parity first and then walks
rows height-2 down to 1 with columns over the interior, left to right
exactly on the toggled parity, which from construction is true on the
even-numbered ticks. -/
theorem scheduler_spec (s : SandBox) (sim : Simulation) (w h : Nat) (rng : List Nat) :
    (sim.running = false → sim.step = false → level_updater s sim = (s, sim))
    ∧ ((sim.running || sim.step) = true →
        level_updater s sim =
          ((sweepOrder s.width s.height (!s.visited_state)).foldl
              (fun u p => update_cell p.1 p.2 u)
              { s with visited_state := !s.visited_state },
            { sim with step := false }))
    ∧ (∀ n, (run_ticks (SandBox.new w h rng) n).visited_state = decide (n % 2 = 1)) := by
  refine ⟨?_, ?_, ?_⟩
  · intro h1 h2
    simp [level_updater, h1, h2]
  · intro hrun
    simp only [level_updater, if_pos hrun, SandBox.toggle_visited_state]
    rw [sweepOrder_foldl,
      show s.height - 2 = s.height - 1 - 1 by omega,
      show s.width - 2 = s.width - 1 - 1 by omega]
  · intro n
    induction n with
    | zero =>
      simp only [run_ticks]
      exact (new_fields w h rng).2.2.2
    | succ n ih =>
      simp only [run_ticks]
      rw [visited_state_tick _ _ (by decide), ih]
      rcases Nat.mod_two_eq_zero_or_one n with h2 | h2
      · have h3 : (n + 1) % 2 = 1 := by omega
        rw [h2, h3]
        decide
      · have h3 : (n + 1) % 2 = 0 := by omega
        rw [h2, h3]
        decide

theorem scheduler_spec_witness :
    level_updater (SandBox.new 3 3 []) { running := false, step := false }
      = (SandBox.new 3 3 [], { running := false, step := false }) ∧
    (run_ticks (SandBox.new 3 3 []) 1).visited_state = true ∧
    (run_ticks (SandBox.new 3 3 []) 2).visited_state = false := by
  refine ⟨?_, ?_, ?_⟩
  · exact (scheduler_spec (SandBox.new 3 3 []) { running := false, step := false } 3 3 []).1
      rfl rfl
  · rw [(scheduler_spec (SandBox.new 3 3 []) { running := false, step := false } 3 3 []).2.2 1]
    decide
  · rw [(scheduler_spec (SandBox.new 3 3 []) { running := false, step := false } 3 3 []).2.2 2]
    decide

/-- Spec-side lateral water search: current distance n and remaining
fuel, so that a stated search depth is explicit. -/
def water_search_from (x y random : Nat) (s : SandBox) : Nat → Nat → Bool × SandBox
  | _, 0 => (false, s)
  | n, fuel + 1 =>
    let check_x_opt : Option Nat :=
      if random < 30 then
        if n < x then some (x - n) else none
      else
        if x + n < s.width - 1 then some (x + n) else none
    match check_x_opt with
    | none => water_search_from x y random s (n + 1) fuel
    | some check_x =>
      let neighbour_element := (s.get check_x y).element
      match touch_water s x y check_x y random with
      | some r => r
      | none =>
        if neighbour_element ≠ Element.Water then (false, s)
        else water_search_from x y random s (n + 1) fuel

theorem water_loop_eq_search (x y random : Nat) (s : SandBox) :
    ∀ fuel n, update_water_loop x y random s (List.range' n fuel) =
      water_search_from x y random s n fuel := by
  intro fuel
  induction fuel with
  | zero => intro n; rfl
  | succ fuel ih =>
    intro n
    rw [List.range'_succ]
    simp only [update_water_loop, water_search_from]
    split
    · exact ih (n + 1)
    · split
      · rfl
      · split
        · rfl
        · exact ih (n + 1)

/-- Spec-side water rule with the amended lateral depth of fifteen
cells. -/
def update_water_spec (x y : Nat) (s : SandBox) : Bool × SandBox :=
  let d := s.random 60
  let random := d.1
  let s1 := d.2
  let target_x := if random < 58 then x else if random = 58 then x - 1 else x + 1
  match touch_water s1 x y target_x (y + 1) random with
  | some r => r
  | none => water_search_from x y random s1 1 15

/-- The water rule exactly as the claim words it: the same algorithm but
searching up to sixteen cells laterally. -/
def update_water_claimed (x y : Nat) (s : SandBox) : Bool × SandBox :=
  let d := s.random 60
  let random := d.1
  let s1 := d.2
  let target_x := if random < 58 then x else if random = 58 then x - 1 else x + 1
  match touch_water s1 x y target_x (y + 1) random with
  | some r => r
  | none => water_search_from x y random s1 1 16

/-- Border cell value used by concrete counterexample grids. -/
def indCell : Cell :=
  { element := Element.Indestructible, variant := 0, strength := 255,
    visited := false, source := false }

/-- Water cell value used by concrete counterexample grids. -/
def waterCell : Cell :=
  { element := Element.Water, variant := 0, strength := 8,
    visited := false, source := false }

/-- Concrete 19-by-3 grid: water at x=1, a chain of fifteen further water
cells, Air at x=17 (lateral distance sixteen) and the draw 40 (down
blocked, direction right). -/
def exWater : SandBox :=
  { width := 19
    height := 3
    cells := List.replicate 19 indCell ++
      ([indCell] ++ List.replicate 16 waterCell ++ [cellDefault, indCell]) ++
      List.replicate 19 indCell
    visited_state := false
    random_source := [40] }

/-- C7 counterexample: the chain of water extends through distance
fifteen and reachable Air sits at lateral distance sixteen, yet the code
returns without moving anything, while the claimed sixteen-cell search
would swap the water into that Air cell. -/
theorem water_sixteen_counterexample :
    update_water 1 1 exWater = (false, { exWater with random_source := [] }) ∧
    update_water_claimed 1 1 exWater ≠ (false, { exWater with random_source := [] }) := by
  constructor
  · decide
  · decide

/-- C7 (amended): the water rule draws once in [0,60), touches below
(straight 58/60, left-down on 58, right-down on 59), and on no result
searches up to fifteen cells laterally in one direction chosen by the
same draw (left exactly when the draw is below 30), stopping at the
first non-Water non-matching neighbour. -/
theorem update_water_spec_correct (x y : Nat) (s : SandBox) :
    update_water x y s = update_water_spec x y s := by
  simp only [update_water, update_water_spec]
  split
  · rfl
  · exact water_loop_eq_search x y (s.random 60).1 (s.random 60).2 15 1

/-- Concrete 3-by-3 grid whose single interior cell is Smoke (catalog
strength 8) walled in by the border, with the next draw  being r; the
variant draw of placing the smoke consumes the leading 99. -/
def exSmoke (r : Nat) : SandBox :=
  (SandBox.new 3 3 [99, r]).set_element 1 1 Element.Smoke false

/-- C8 counterexample: across the five equally likely values of the
random draw, the smoke rule attempts strength decay for exactly two of
them (3 and 4), not three out of five; the attempt is observed as the
blocked smoke cell's strength dropping from 8 to 7. -/
theorem update_smoke_decay_counterexample :
    ((List.range 5).countP
      (fun r => ((update_smoke 1 1 (exSmoke r)).2.get 1 1).strength == 7)) = 2 := by
  decide

theorem smoke_move_eq_dir (x y r : Nat) (t : SandBox) :
    smoke_move x y r t =
      (let dir : Nat × Nat := if r = 0 then (x + 1, y) else if r = 1 then (x - 1, y)
        else (x, y - 1)
      let ne := (t.get dir.1 dir.2).element
      if ne = Element.Air then (true, t.swap x y dir.1 dir.2)
      else if ne = Element.Fire ∨ ne.form = ElementForm.Liquid then (true, t.clear_cell x y)
      else (false, t)) := by
  rcases r with _ | r
  · rfl
  · rcases r with _ | r
    · rfl
    · rfl

/-- Spec-side smoke rule with the amended decay frequency: the draw is in
[0,5); on the two values above 2 a strength decay is attempted, the cell
vanishing to Air when it cannot decay; the move direction is right on 0,
left on 1 and up on the other three values, swapping into Air and
vanishing on contact with Fire or a liquid-form neighbour. -/
def update_smoke_spec (x y : Nat) (s : SandBox) : Bool × SandBox :=
  let d := s.random 5
  let random := d.1
  let s1 := d.2
  let decay_roll := random > 2
  if decay_roll then
    let r := s1.reduce_strength x y
    if r.1 then
      let dir : Nat × Nat := if random = 0 then (x + 1, y) else if random = 1 then (x - 1, y)
        else (x, y - 1)
      let ne := (r.2.get dir.1 dir.2).element
      if ne = Element.Air then (true, r.2.swap x y dir.1 dir.2)
      else if ne = Element.Fire ∨ ne.form = ElementForm.Liquid then (true, r.2.clear_cell x y)
      else (false, r.2)
    else (true, r.2.clear_cell x y)
  else
    let dir : Nat × Nat := if random = 0 then (x + 1, y) else if random = 1 then (x - 1, y)
      else (x, y - 1)
    let ne := (s1.get dir.1 dir.2).element
    if ne = Element.Air then (true, s1.swap x y dir.1 dir.2)
    else if ne = Element.Fire ∨ ne.form = ElementForm.Liquid then (true, s1.clear_cell x y)
    else (false, s1)

/-- C8 (amended): the smoke rule equals the spec-side formulation in
which strength decay is attempted on two of the five draws. -/
theorem update_smoke_spec_correct (x y : Nat) (s : SandBox) :
    update_smoke x y s = update_smoke_spec x y s := by
  by_cases hrand : (s.random 5).1 > 2
  · simp only [update_smoke, update_smoke_spec, if_pos hrand]
    cases hr : ((s.random 5).2.reduce_strength x y).1 <;>
      simp [hr, smoke_move_eq_dir]
  · simp only [update_smoke, update_smoke_spec, if_neg hrand]
    rw [smoke_move_eq_dir]
